import Mathlib

/-!
# Verification of the idle-tracker client core

A shallow embedding of the idle/shift/overtime state machine of
`src/main.py` (class `UserApp`, class `GlobalActivityMonitor`, and the
module-level helpers).  Monotonic- and wall-clock instants are modelled
as rationals (seconds); Python `int(...)` truncation is `pyInt`; calls
into collaborating subsystems (store, mailer, capture backend) are
modelled as observable effects, with Boolean behaviour flags deciding
whether a given collaborator call raises.
-/

namespace IdleTracker

/-- Python `int(x)` on a float: truncation toward zero. -/
def pyInt (q : ℚ) : ℤ := if 0 ≤ q then ⌊q⌋ else -⌊-q⌋

/-- `INACTIVITY_SECONDS = 10` (src/main.py line 48). -/
def INACTIVITY_SECONDS : ℚ := 10

/-- `CHECK_INTERVAL_MS = 250` (src/main.py line 49). -/
def CHECK_INTERVAL_MS : ℤ := 250

/-- `MIN_SCREENSHOTS_PER_SHIFT = 15` (src/main.py line 50). -/
def MIN_SCREENSHOTS_PER_SHIFT : ℕ := 15

/-- `LOGIN_PROMPT_EVERY_S = 15` (src/main.py line 51). -/
def LOGIN_PROMPT_EVERY_S : ℚ := 15

/-- The fields of the user row that the tracker core reads.  Shift
times-of-day are seconds after local midnight (`strptime "%H:%M:%S"`
guarantees values below 86400); `shiftEndSec = none` models a row
without a `shift_end_time` key, for which `dict.get` supplies the
default `"18:00:00"` (= 64800 s). -/
structure UserRec where
  shiftStartSec : ℕ
  shiftEndSec : Option ℕ
  name : String
  username : String
  email : String
  department : String
deriving Repr, DecidableEq

/-- `UserApp._compute_today_bounds` (src/main.py lines 268-287), for a
logged-in user: combine each shift time-of-day with the current local
date (`nowLocal` is local seconds since an epoch, so the date is
`⌊nowLocal / 86400⌋`); when `end ≤ start` the shift is overnight and a
day is added to the end.  Returns (today_shift_start, today_shift_end)
as absolute local instants in seconds. -/
def compute_today_bounds (u : UserRec) (nowLocal : ℚ) : ℚ × ℚ :=
  let day : ℤ := ⌊nowLocal / 86400⌋
  let start : ℤ := day * 86400 + u.shiftStartSec
  let e0 : ℤ := day * 86400 + (u.shiftEndSec.getD 64800)
  let endI : ℤ := if e0 ≤ start then e0 + 86400 else e0
  ((start : ℚ), (endI : ℚ))

/-- Python `f"{n:02d}"`: decimal rendering zero-padded to width 2. -/
def pad2 (n : ℤ) : String :=
  let s := toString n
  if s.length < 2 then "0" ++ s else s

/-- `seconds_to_hhmmss` (src/main.py lines 824-830): `None` renders as
`"00:00:00"`, otherwise `h = sec // 3600`, `m = (sec % 3600) // 60`,
`s = sec % 60` with Python floor division, each zero-padded to two
digits. -/
def seconds_to_hhmmss (sec : Option ℤ) : String :=
  match sec with
  | none => "00:00:00"
  | some sec =>
    let h := Int.fdiv sec 3600
    let m := Int.fdiv (Int.fmod sec 3600) 60
    let s := Int.fmod sec 60
    pad2 h ++ ":" ++ pad2 m ++ ":" ++ pad2 s

/-- The in-memory state of `UserApp` that the tracker core reads and
writes (src/main.py lines 159-195 initialise it).  Monotonic instants
(`lastActivity`, `activeSince`, `lastTick`, ...) are rationals; today
counters are naturals (Python ints that start at 0 and only grow). -/
structure AppState where
  currentUser : Option UserRec
  lastActivity : ℚ
  inactiveSent : Bool
  activeSince : Option ℚ
  inactiveStartedMono : Option ℚ
  activeSecondsToday : ℕ
  inactiveSecondsToday : ℕ
  overtimeSecondsToday : ℕ
  lastTick : ℚ
  lastLoginPrompt : ℚ
  screenshotsTakenToday : ℕ
  nextScreenshotAfterMs : Option ℤ
  todayShiftStart : Option ℚ
  todayShiftEnd : Option ℚ
  overtimeStartedMono : Option ℚ
  recordingInProgress : Bool
  preShift : Bool
deriving Repr, DecidableEq

/-- Observable calls into the collaborating subsystems, in the order
the tick path issues them. -/
inductive Effect where
  | notifyLogin
  | updateStatus (status : String)
  | recordEvent (kind : String) (activeDuration : Option ℤ) (eventId : ℕ)
  | notifyInactive
  | emailDispatch (activeDuration : Option ℤ)
  | recordingDispatch (eventId : ℕ)
  | screenshotCapture
  | screenshotInsert
  | overtimeInsert (date : ℤ) (seconds : ℕ)
  | recordingPersist (eventId : ℕ)
deriving Repr, DecidableEq

/-- External inputs consumed by one execution of `_loop_check`:
the monotonic clock, the local wall clock (seconds since a local
epoch), the values `random.randint(20, 35)` would return for the two
possible `_plan_next_random_screenshot` calls, and the event id the
store allocates for `record_event`. -/
structure TickInput where
  now : ℚ
  nowLocal : ℚ
  minsStart : ℕ
  minsShot : ℕ
  eventId : ℕ
deriving Repr, DecidableEq

/-- Whether each fallible collaborator call on the tick path completes
normally (`true`) or raises (`false`). -/
structure StoreBehavior where
  recordEventOk : Bool
  updateStatusOk : Bool
  captureOk : Bool
  insertScreenshotOk : Bool
deriving Repr, DecidableEq

/-- All collaborator calls succeed. -/
def allOk : StoreBehavior := ⟨true, true, true, true⟩

/-- `UserApp._compute_today_bounds` as a state update (src/main.py
lines 268-287): with no logged-in user both bounds are cleared,
otherwise both are recomputed for the current local date. -/
def compute_today_bounds_state (st : AppState) (nowLocal : ℚ) : AppState :=
  match st.currentUser with
  | none => { st with todayShiftStart := none, todayShiftEnd := none }
  | some u =>
    let b := compute_today_bounds u nowLocal
    { st with todayShiftStart := some b.1, todayShiftEnd := some b.2 }

/-- `UserApp._plan_next_random_screenshot` (src/main.py lines 593-595)
with the random draw `mins = random.randint(20, 35)` passed in:
`next_screenshot_after_ms = mins * 60 * 1000`. -/
def plan_next_random_screenshot (mins : ℕ) (st : AppState) : AppState :=
  { st with nextScreenshotAfterMs := some ((mins : ℤ) * 60 * 1000) }

/-- `UserApp._start_shift_now` (src/main.py lines 374-384).  The first
statement is the unguarded store call `update_user_status(..,
"active")`; if it raises (`updOk = false`) the exception propagates
before any state mutation, modelled as `none`. -/
def start_shift_now (now : ℚ) (minsStart : ℕ) (updOk : Bool) (st : AppState) :
    Option (AppState × List Effect) :=
  if updOk = false then none
  else
    let st := { st with
      lastActivity := now,
      inactiveSent := false,
      activeSince := some now,
      inactiveStartedMono := none,
      preShift := false,
      screenshotsTakenToday := 0 }
    some (plan_next_random_screenshot minsStart st, [Effect.updateStatus "active"])

/-- `UserApp._maybe_take_random_screenshot` (src/main.py lines
597-612): early returns when logged out, when the daily count has
reached `MIN_SCREENSHOTS_PER_SHIFT`, or when no delay is armed;
otherwise the armed delay is decremented by `CHECK_INTERVAL_MS` and,
at or below zero, a capture and persist are attempted inside
`try/except` (the counter advances only when both succeed) and a fresh
delay is planned regardless. -/
def maybe_take_random_screenshot (minsShot : ℕ) (beh : StoreBehavior)
    (st : AppState) : AppState × List Effect :=
  match st.currentUser with
  | none => (st, [])
  | some _ =>
    if MIN_SCREENSHOTS_PER_SHIFT ≤ st.screenshotsTakenToday then (st, [])
    else
      match st.nextScreenshotAfterMs with
      | none => (st, [])
      | some ms =>
        let ms' := ms - CHECK_INTERVAL_MS
        let st := { st with nextScreenshotAfterMs := some ms' }
        if ms' ≤ 0 then
          let effs := Effect.screenshotCapture ::
            (if beh.captureOk then [Effect.screenshotInsert] else [])
          let st :=
            if beh.captureOk && beh.insertScreenshotOk then
              { st with screenshotsTakenToday := st.screenshotsTakenToday + 1 }
            else st
          (plan_next_random_screenshot minsShot st, effs)
        else (st, [])

/-- `UserApp._flush_overtime_segment` (src/main.py lines 560-579):
no-op unless a segment is open and a user is logged in; otherwise
`seconds = int(max(0, now − overtime_segment_start))`, the marker is
cleared, and when `seconds > 0` the counter is raised and one overtime
record for today's local date is inserted inside `try/except` (an
insert failure leaves the already-raised counter in place). -/
def flush_overtime_segment (now nowLocal : ℚ) (insertOvertimeOk : Bool)
    (st : AppState) : AppState × List Effect :=
  match st.overtimeStartedMono, st.currentUser with
  | none, _ => (st, [])
  | some _, none => (st, [])
  | some t0, some _ =>
    let seconds : ℤ := pyInt (max 0 (now - t0))
    let st := { st with overtimeStartedMono := none }
    if seconds ≤ 0 then (st, [])
    else
      let otDate : ℤ := ⌊nowLocal / 86400⌋
      let st := { st with overtimeSecondsToday := st.overtimeSecondsToday + seconds.toNat }
      if insertOvertimeOk then (st, [Effect.overtimeInsert otDate seconds.toNat])
      else (st, [])

/-- `UserApp._record_and_store` (src/main.py lines 582-590), the
recording worker: capture and persist inside `try/except` — the
`insert_recording_url` call is issued only when capture succeeded —
and the `finally` clause clears `recording_in_progress`
unconditionally. -/
def record_and_store (captureOk insertRecordingOk : Bool) (eventId : ℕ)
    (st : AppState) : AppState × List Effect :=
  let effs := if captureOk then [Effect.recordingPersist eventId] else []
  let _ := insertRecordingOk
  ({ st with recordingInProgress := false }, effs)

/-- `UserApp._on_global_activity` (src/main.py lines 387-402):
unconditionally refresh `last_activity`; for a logged-in, non-pre-shift
session, a set `inactive_sent` flag is cleared (with a status write and
a fresh active streak), and a missing active streak is opened.  The
status write is unguarded: when it raises (`updOk = false`) the
following mutations are skipped. -/
def on_global_activity (now : ℚ) (updOk : Bool) (st0 : AppState) :
    AppState × List Effect :=
  let st := { st0 with lastActivity := now }
  match st.currentUser with
  | none => (st, [])
  | some _ =>
    if st.preShift then (st, [])
    else if st.inactiveSent then
      if updOk = false then (st, [])
      else ({ st with
          inactiveSent := false,
          activeSince := some now,
          inactiveStartedMono := none }, [Effect.updateStatus "active"])
    else if st.activeSince = none then
      if updOk = false then (st, [])
      else ({ st with activeSince := some now }, [Effect.updateStatus "active"])
    else (st, [])

/-- The pre-shift countdown and auto-start section of
`UserApp._loop_check` (src/main.py lines 466-475): active only while a
logged-in session is pre-shift with cached bounds; when the truncated
remaining time reaches zero `_start_shift_now` runs (whose unguarded
status write may raise, yielding `none`); otherwise only the popup
message changes. -/
def pre_shift_step (inp : TickInput) (beh : StoreBehavior) (st : AppState) :
    Option (AppState × List Effect) :=
  match st.currentUser, st.todayShiftStart with
  | some _, some ts =>
    if st.preShift then
      if pyInt (ts - inp.nowLocal) ≤ 0 then
        start_shift_now inp.now inp.minsStart beh.updateStatusOk st
      else some (st, [])
    else some (st, [])
  | _, _ => some (st, [])

/-- The guard of the Active→Inactive transition as written at
src/main.py lines 506-507: logged in, not pre-shift, idle at or above
the threshold, debounce flag still clear. -/
def firesGuard (idle : ℚ) (st : AppState) : Prop :=
  st.currentUser ≠ none ∧ st.preShift = false ∧
    INACTIVITY_SECONDS ≤ idle ∧ st.inactiveSent = false

instance (idle : ℚ) (st : AppState) : Decidable (firesGuard idle st) := by
  unfold firesGuard; infer_instance

/-- The inactivity-boundary section of `UserApp._loop_check`
(src/main.py lines 505-527).  When a logged-in, non-pre-shift session
crosses the idle threshold with `inactive_sent` still clear:
`record_event` then `update_user_status` run unguarded (a raise —
modelled as `Except.error` carrying the effects already issued —
propagates before `inactive_sent` is set); on success the debounce
flag is set, a local toast and the async email fan-out are issued, and
a recording worker is dispatched only when none is in flight, the
in-flight flag being set together with the dispatch. -/
def inactivity_boundary (inp : TickInput) (beh : StoreBehavior) (idle : ℚ)
    (st : AppState) : Except (List Effect) (AppState × List Effect) :=
  if firesGuard idle st then
    let activeDuration : Option ℤ := st.activeSince.map (fun a => pyInt (inp.now - a))
    if beh.recordEventOk = false then Except.error []
    else if beh.updateStatusOk = false then
      Except.error [Effect.recordEvent "inactive" activeDuration inp.eventId]
    else
      let st := { st with inactiveSent := true, inactiveStartedMono := some inp.now }
      let baseEffs := [Effect.recordEvent "inactive" activeDuration inp.eventId,
                       Effect.updateStatus "inactive", Effect.notifyInactive,
                       Effect.emailDispatch activeDuration]
      if st.recordingInProgress then Except.ok (st, baseEffs)
      else Except.ok ({ st with recordingInProgress := true },
                      baseEffs ++ [Effect.recordingDispatch inp.eventId])
  else Except.ok (st, [])

/-- The pre-login reminder section of `UserApp._loop_check`
(src/main.py lines 460-463): while logged out, a toast fires at most
every `LOGIN_PROMPT_EVERY_S` seconds. -/
def login_reminder (now : ℚ) (st : AppState) : AppState × List Effect :=
  if st.currentUser = none ∧ LOGIN_PROMPT_EVERY_S ≤ now - st.lastLoginPrompt then
    ({ st with lastLoginPrompt := now }, [Effect.notifyLogin])
  else (st, [])

/-- The shift-bound recomputation of `UserApp._loop_check`
(src/main.py lines 479-481): while logged in, recompute lazily when
`today_shift_end` is unset. -/
def recompute_bounds_if_needed (st : AppState) (nowLocal : ℚ) : AppState :=
  if st.currentUser ≠ none ∧ st.todayShiftEnd = none then
    compute_today_bounds_state st nowLocal
  else st

/-- `after_end = bool(today_shift_end and now_local >= today_shift_end)`
guarded by a logged-in user (src/main.py lines 478-483). -/
def after_end_flag (st : AppState) (nowLocal : ℚ) : Bool :=
  match st.currentUser, st.todayShiftEnd with
  | some _, some te => decide (te ≤ nowLocal)
  | _, _ => false

/-- The 1-second ticker of `UserApp._loop_check` (src/main.py lines
485-503): when at least one whole second elapsed since `_last_tick`,
advance `_last_tick` by the whole-second part (the fractional leftover
stays) and, for a logged-in non-pre-shift session, add that delta to
the active or the inactive counter according to the idle threshold —
and also to the overtime counter when active after shift end. -/
def ticker_step (now idle : ℚ) (afterEnd : Bool) (st : AppState) : AppState :=
  if 1 ≤ now - st.lastTick then
    let delta : ℕ := (pyInt (now - st.lastTick)).toNat
    let st' := { st with lastTick := st.lastTick + (delta : ℚ) }
    if st'.currentUser ≠ none ∧ st'.preShift = false then
      if idle < INACTIVITY_SECONDS then
        let st'' := { st' with activeSecondsToday := st'.activeSecondsToday + delta }
        if afterEnd then
          { st'' with overtimeSecondsToday := st''.overtimeSecondsToday + delta }
        else st''
      else { st' with inactiveSecondsToday := st'.inactiveSecondsToday + delta }
    else st'
  else st

/-- `UserApp._loop_check` (src/main.py lines 453-533), one tick.
`idle = now − last_activity` is computed once at the top and not
refreshed by a same-tick auto-start, exactly as in the source.  The
returned Boolean records whether the closing
`self.after(CHECK_INTERVAL_MS, self._loop_check)` was reached, i.e.
whether the next tick got scheduled; it is `false` exactly when one of
the unguarded store calls raised. -/
def loop_check (inp : TickInput) (beh : StoreBehavior) (st0 : AppState) :
    AppState × List Effect × Bool :=
  let now := inp.now
  let idle := now - st0.lastActivity
  let s1 := login_reminder now st0
  match pre_shift_step inp beh s1.1 with
  | none => (s1.1, s1.2, false)
  | some (st2, e2) =>
    let st3 := recompute_bounds_if_needed st2 inp.nowLocal
    let afterEnd := after_end_flag st3 inp.nowLocal
    let st4 := ticker_step now idle afterEnd st3
    match inactivity_boundary inp beh idle st4 with
    | Except.error e3 => (st4, s1.2 ++ e2 ++ e3, false)
    | Except.ok (st5, e3) =>
      let s6 :=
        if st5.preShift = false then maybe_take_random_screenshot inp.minsShot beh st5
        else (st5, [])
      (s6.1, s1.2 ++ e2 ++ e3 ++ s6.2, true)

/-- Iterated ticks: fold `loop_check` over a list of tick inputs,
stopping — as the real scheduler does — as soon as a tick fails to
re-arm itself. -/
def run_ticks (beh : StoreBehavior) (inps : List TickInput) (st : AppState) :
    AppState × List Effect :=
  match inps with
  | [] => (st, [])
  | inp :: rest =>
    match loop_check inp beh st with
    | (st', effs, false) => (st', effs)
    | (st', effs, true) =>
      let r := run_ticks beh rest st'
      (r.1, effs ++ r.2)

/-- The recipient set built by the `_send` closure of
`UserApp._fanout_inactive_email_async` (src/main.py lines 544-550):
a Python `set` seeded with the user's own email when truthy
(non-empty), all truthy admin emails from the store, the bootstrap
admin email when truthy, and every configured extra recipient. -/
def fanoutRecipients (userEmail : String) (adminEmails : List String)
    (bootstrapEmail : String) (alertRecipients : List String) : Finset String :=
  let r0 : Finset String := ∅
  let r1 := if userEmail ≠ "" then insert userEmail r0 else r0
  let r2 := r1 ∪ (adminEmails.filter (fun e => decide (e ≠ ""))).toFinset
  let r3 := if bootstrapEmail ≠ "" then insert bootstrapEmail r2 else r2
  r3 ∪ alertRecipients.toFinset

/-- Modelled from the spec (section 4.6 step 5): the recipient set as
the spec words it — the deduplicated union of the user's own email
(when present), the non-empty admin emails, the bootstrap admin email
(when present) and the configured extra recipients.  Compared with
`fanoutRecipients`, the definition taken from the source. -/
def specRecipients (userEmail : String) (adminEmails : List String)
    (bootstrapEmail : String) (alertRecipients : List String) : Finset String :=
  (if userEmail ≠ "" then {userEmail} else ∅) ∪
    (adminEmails.filter (fun e => decide (e ≠ ""))).toFinset ∪
    (if bootstrapEmail ≠ "" then {bootstrapEmail} else ∅) ∪
    alertRecipients.toFinset

/-- The alert body built by `_send` (src/main.py lines 541-543):
Python truthiness makes `seconds_to_hhmmss(active_duration)` render
only for a present, non-zero duration. -/
def fanoutBody (name username email department whenTxt : String)
    (activeDuration : Option ℤ) : String :=
  let durationTxt :=
    match activeDuration with
    | some d => if d = 0 then "unknown" else seconds_to_hhmmss (some d)
    | none => "unknown"
  "User " ++ name ++ " (@" ++ username ++ ", " ++ email ++ ", " ++ department ++
    ") became INACTIVE at " ++ whenTxt ++ ". Active streak: " ++ durationTxt ++ "."

/-- One `send_email` invocation as observed by the mailer. -/
structure SendCall where
  recipients : Finset String
  subject : String
  body : String
deriving DecidableEq

/-- The `_send` worker of `UserApp._fanout_inactive_email_async`
(src/main.py lines 537-556): builds the body and the deduplicated
recipient set, calls `send_email` only when the set is non-empty, and
wraps everything in `try/except Exception: pass` — so the worker
finishes normally (second component `true`) whether or not the send
raised (`sendOk`). -/
def fanout_send (u : UserRec) (adminEmails : List String)
    (bootstrapEmail : String) (alertRecipients : List String)
    (whenTxt : String) (activeDuration : Option ℤ) (sendOk : Bool) :
    Option SendCall × Bool :=
  let body := fanoutBody u.name u.username u.email u.department whenTxt activeDuration
  let recipients := fanoutRecipients u.email adminEmails bootstrapEmail alertRecipients
  let call : Option SendCall :=
    if recipients = ∅ then none
    else some ⟨recipients, "[IdleTracker] " ++ u.username ++ " inactive", body⟩
  let _ := sendOk
  (call, true)

/-- The state of `GlobalActivityMonitor` (src/main.py lines 92-99);
listeners are represented by opaque ids. -/
structure Monitor where
  running : Bool
  mouseListener : Option ℕ
  keyListener : Option ℕ
  lastFire : ℚ
  minInterval : ℚ
deriving Repr, DecidableEq

/-- Listener lifecycle calls made by the monitor. -/
inductive MonEffect where
  | startListeners (mouseId keyId : ℕ)
deriving Repr, DecidableEq

/-- `GlobalActivityMonitor.start` (src/main.py lines 112-120): returns
at once while `_running` is set; otherwise marks the monitor running
and creates and starts one mouse listener and one keyboard listener
(fresh ids supplied by the caller). -/
def Monitor.start (m : Monitor) (mouseId keyId : ℕ) : Monitor × List MonEffect :=
  if m.running then (m, [])
  else ({ m with running := true,
                 mouseListener := some mouseId,
                 keyListener := some keyId },
        [MonEffect.startListeners mouseId keyId])

/-! ## Basic lemmas about the section helpers -/

theorem login_reminder_state (now : ℚ) (st : AppState) :
    (login_reminder now st).1 = st ∨
      (login_reminder now st).1 = { st with lastLoginPrompt := now } := by
  unfold login_reminder
  split
  · exact Or.inr rfl
  · exact Or.inl rfl

theorem login_reminder_of_user (now : ℚ) (st : AppState)
    (h : st.currentUser ≠ none) : login_reminder now st = (st, []) := by
  unfold login_reminder
  split
  · rename_i hc
    exact absurd hc.1 h
  · rfl

theorem pre_shift_step_of_not_preshift (inp : TickInput) (beh : StoreBehavior)
    (st : AppState) (h : st.preShift = false) :
    pre_shift_step inp beh st = some (st, []) := by
  unfold pre_shift_step
  rcases hcu : st.currentUser with _ | u <;>
    rcases hts : st.todayShiftStart with _ | ts <;> simp [h]

theorem pre_shift_step_frame (inp : TickInput) (beh : StoreBehavior)
    (st st' : AppState) (e : List Effect)
    (h : pre_shift_step inp beh st = some (st', e)) :
    st'.currentUser = st.currentUser ∧
    st'.activeSecondsToday = st.activeSecondsToday ∧
    st'.inactiveSecondsToday = st.inactiveSecondsToday ∧
    st'.overtimeSecondsToday = st.overtimeSecondsToday ∧
    st'.lastTick = st.lastTick ∧
    st'.overtimeStartedMono = st.overtimeStartedMono ∧
    st'.todayShiftEnd = st.todayShiftEnd ∧
    st'.lastLoginPrompt = st.lastLoginPrompt ∧
    st'.recordingInProgress = st.recordingInProgress := by
  unfold pre_shift_step start_shift_now plan_next_random_screenshot at h
  repeat' split at h
  all_goals simp only [Option.some.injEq, Prod.mk.injEq, reduceCtorEq] at h
  all_goals obtain ⟨h1, -⟩ := h
  all_goals subst h1
  all_goals simp

theorem recompute_bounds_frame (st : AppState) (nowLocal : ℚ) :
    (recompute_bounds_if_needed st nowLocal).currentUser = st.currentUser ∧
    (recompute_bounds_if_needed st nowLocal).lastActivity = st.lastActivity ∧
    (recompute_bounds_if_needed st nowLocal).inactiveSent = st.inactiveSent ∧
    (recompute_bounds_if_needed st nowLocal).activeSince = st.activeSince ∧
    (recompute_bounds_if_needed st nowLocal).activeSecondsToday = st.activeSecondsToday ∧
    (recompute_bounds_if_needed st nowLocal).inactiveSecondsToday = st.inactiveSecondsToday ∧
    (recompute_bounds_if_needed st nowLocal).overtimeSecondsToday = st.overtimeSecondsToday ∧
    (recompute_bounds_if_needed st nowLocal).lastTick = st.lastTick ∧
    (recompute_bounds_if_needed st nowLocal).screenshotsTakenToday = st.screenshotsTakenToday ∧
    (recompute_bounds_if_needed st nowLocal).nextScreenshotAfterMs = st.nextScreenshotAfterMs ∧
    (recompute_bounds_if_needed st nowLocal).overtimeStartedMono = st.overtimeStartedMono ∧
    (recompute_bounds_if_needed st nowLocal).recordingInProgress = st.recordingInProgress ∧
    (recompute_bounds_if_needed st nowLocal).preShift = st.preShift := by
  unfold recompute_bounds_if_needed compute_today_bounds_state
  split
  · rcases st.currentUser with _ | u <;> simp
  · simp

theorem ticker_step_frame (now idle : ℚ) (afterEnd : Bool) (st : AppState) :
    (ticker_step now idle afterEnd st).currentUser = st.currentUser ∧
    (ticker_step now idle afterEnd st).lastActivity = st.lastActivity ∧
    (ticker_step now idle afterEnd st).inactiveSent = st.inactiveSent ∧
    (ticker_step now idle afterEnd st).activeSince = st.activeSince ∧
    (ticker_step now idle afterEnd st).screenshotsTakenToday = st.screenshotsTakenToday ∧
    (ticker_step now idle afterEnd st).nextScreenshotAfterMs = st.nextScreenshotAfterMs ∧
    (ticker_step now idle afterEnd st).todayShiftStart = st.todayShiftStart ∧
    (ticker_step now idle afterEnd st).todayShiftEnd = st.todayShiftEnd ∧
    (ticker_step now idle afterEnd st).overtimeStartedMono = st.overtimeStartedMono ∧
    (ticker_step now idle afterEnd st).recordingInProgress = st.recordingInProgress ∧
    (ticker_step now idle afterEnd st).preShift = st.preShift ∧
    (ticker_step now idle afterEnd st).lastLoginPrompt = st.lastLoginPrompt := by
  simp only [ticker_step, apply_ite AppState.currentUser, apply_ite AppState.lastActivity,
    apply_ite AppState.inactiveSent, apply_ite AppState.activeSince,
    apply_ite AppState.screenshotsTakenToday, apply_ite AppState.nextScreenshotAfterMs,
    apply_ite AppState.todayShiftStart, apply_ite AppState.todayShiftEnd,
    apply_ite AppState.overtimeStartedMono, apply_ite AppState.recordingInProgress,
    apply_ite AppState.preShift, apply_ite AppState.lastLoginPrompt]
  simp

theorem inactivity_boundary_not_fired (inp : TickInput) (beh : StoreBehavior)
    (idle : ℚ) (st : AppState) (h : ¬ firesGuard idle st) :
    inactivity_boundary inp beh idle st = Except.ok (st, []) := by
  unfold inactivity_boundary
  rw [if_neg h]

set_option maxRecDepth 8192 in
theorem inactivity_boundary_fired_busy (inp : TickInput) (idle : ℚ)
    (st : AppState) (h : firesGuard idle st)
    (hb : st.recordingInProgress = true) :
    inactivity_boundary inp allOk idle st =
      Except.ok ({ st with inactiveSent := true, inactiveStartedMono := some inp.now },
        [Effect.recordEvent "inactive" (st.activeSince.map fun a => pyInt (inp.now - a)) inp.eventId,
         Effect.updateStatus "inactive", Effect.notifyInactive,
         Effect.emailDispatch (st.activeSince.map fun a => pyInt (inp.now - a))]) := by
  unfold inactivity_boundary
  rw [if_pos h]
  simp [allOk, hb]

set_option maxRecDepth 8192 in
theorem inactivity_boundary_fired_free (inp : TickInput) (idle : ℚ)
    (st : AppState) (h : firesGuard idle st)
    (hb : st.recordingInProgress = false) :
    inactivity_boundary inp allOk idle st =
      Except.ok ({ st with
          inactiveSent := true
          inactiveStartedMono := some inp.now
          recordingInProgress := true },
        [Effect.recordEvent "inactive" (st.activeSince.map fun a => pyInt (inp.now - a)) inp.eventId,
         Effect.updateStatus "inactive", Effect.notifyInactive,
         Effect.emailDispatch (st.activeSince.map fun a => pyInt (inp.now - a)),
         Effect.recordingDispatch inp.eventId]) := by
  unfold inactivity_boundary
  rw [if_pos h]
  simp [allOk, hb]

theorem inactivity_boundary_record_fail (inp : TickInput) (beh : StoreBehavior)
    (idle : ℚ) (st : AppState) (h : firesGuard idle st)
    (hr : beh.recordEventOk = false) :
    inactivity_boundary inp beh idle st = Except.error [] := by
  unfold inactivity_boundary
  rw [if_pos h]
  simp [hr]

theorem inactivity_boundary_ok_frame (inp : TickInput) (beh : StoreBehavior)
    (idle : ℚ) (st st' : AppState) (e : List Effect)
    (h : inactivity_boundary inp beh idle st = Except.ok (st', e)) :
    st'.currentUser = st.currentUser ∧
    st'.preShift = st.preShift ∧
    st'.lastActivity = st.lastActivity ∧
    st'.activeSince = st.activeSince ∧
    st'.activeSecondsToday = st.activeSecondsToday ∧
    st'.inactiveSecondsToday = st.inactiveSecondsToday ∧
    st'.overtimeSecondsToday = st.overtimeSecondsToday ∧
    st'.lastTick = st.lastTick ∧
    st'.lastLoginPrompt = st.lastLoginPrompt ∧
    st'.screenshotsTakenToday = st.screenshotsTakenToday ∧
    st'.nextScreenshotAfterMs = st.nextScreenshotAfterMs ∧
    st'.todayShiftStart = st.todayShiftStart ∧
    st'.todayShiftEnd = st.todayShiftEnd ∧
    st'.overtimeStartedMono = st.overtimeStartedMono ∧
    (st.inactiveSent = true → st'.inactiveSent = true) := by
  unfold inactivity_boundary at h
  by_cases hg : firesGuard idle st
  · rw [if_pos hg] at h
    by_cases hre : beh.recordEventOk = false
    · simp [hre] at h
    · rw [if_neg hre] at h
      by_cases hus : beh.updateStatusOk = false
      · simp [hus] at h
      · rw [if_neg hus] at h
        by_cases hb : st.recordingInProgress = true <;>
          simp only [hb, if_true, if_false, ite_true, ite_false] at h <;>
          simp at h <;>
          obtain ⟨h1, -⟩ := h <;> subst h1 <;>
          simp [hg.2.2.2]
  · rw [if_neg hg] at h
    simp at h
    obtain ⟨h1, -⟩ := h
    subst h1
    simp

theorem maybe_take_frame (m : ℕ) (beh : StoreBehavior) (st : AppState) :
    (maybe_take_random_screenshot m beh st).1.currentUser = st.currentUser ∧
    (maybe_take_random_screenshot m beh st).1.lastActivity = st.lastActivity ∧
    (maybe_take_random_screenshot m beh st).1.inactiveSent = st.inactiveSent ∧
    (maybe_take_random_screenshot m beh st).1.activeSince = st.activeSince ∧
    (maybe_take_random_screenshot m beh st).1.activeSecondsToday = st.activeSecondsToday ∧
    (maybe_take_random_screenshot m beh st).1.inactiveSecondsToday = st.inactiveSecondsToday ∧
    (maybe_take_random_screenshot m beh st).1.overtimeSecondsToday = st.overtimeSecondsToday ∧
    (maybe_take_random_screenshot m beh st).1.lastTick = st.lastTick ∧
    (maybe_take_random_screenshot m beh st).1.lastLoginPrompt = st.lastLoginPrompt ∧
    (maybe_take_random_screenshot m beh st).1.todayShiftStart = st.todayShiftStart ∧
    (maybe_take_random_screenshot m beh st).1.todayShiftEnd = st.todayShiftEnd ∧
    (maybe_take_random_screenshot m beh st).1.overtimeStartedMono = st.overtimeStartedMono ∧
    (maybe_take_random_screenshot m beh st).1.recordingInProgress = st.recordingInProgress ∧
    (maybe_take_random_screenshot m beh st).1.preShift = st.preShift := by
  rcases hcu : st.currentUser with _ | u <;>
    rcases hms : st.nextScreenshotAfterMs with _ | ms <;>
    simp only [maybe_take_random_screenshot, plan_next_random_screenshot, hcu, hms] <;>
    (try split_ifs) <;> simp [hcu]

theorem maybe_take_effects (m : ℕ) (beh : StoreBehavior) (st : AppState) :
    ∀ e ∈ (maybe_take_random_screenshot m beh st).2,
      e = Effect.screenshotCapture ∨ e = Effect.screenshotInsert := by
  intro e he
  rcases hcu : st.currentUser with _ | u <;>
    rcases hms : st.nextScreenshotAfterMs with _ | ms <;>
    simp only [maybe_take_random_screenshot, plan_next_random_screenshot, hcu, hms] at he <;>
    (try split_ifs at he) <;> simp at he <;> tauto

theorem maybe_take_capped (m : ℕ) (beh : StoreBehavior) (st : AppState)
    (h : MIN_SCREENSHOTS_PER_SHIFT ≤ st.screenshotsTakenToday) :
    maybe_take_random_screenshot m beh st = (st, []) := by
  rcases hcu : st.currentUser with _ | u <;>
    simp only [maybe_take_random_screenshot, hcu] <;> simp [h]

theorem maybe_take_sat (m : ℕ) (beh : StoreBehavior) (st : AppState)
    (h : st.screenshotsTakenToday ≤ MIN_SCREENSHOTS_PER_SHIFT) :
    (maybe_take_random_screenshot m beh st).1.screenshotsTakenToday ≤
      MIN_SCREENSHOTS_PER_SHIFT := by
  unfold MIN_SCREENSHOTS_PER_SHIFT at h ⊢
  rcases hcu : st.currentUser with _ | u <;>
    rcases hms : st.nextScreenshotAfterMs with _ | ms <;>
    simp only [maybe_take_random_screenshot, plan_next_random_screenshot,
      MIN_SCREENSHOTS_PER_SHIFT, hcu, hms] <;>
    (try split_ifs) <;> (try simp) <;> omega

theorem loop_check_user_eq (inp : TickInput) (beh : StoreBehavior) (st : AppState)
    (hne : st.currentUser ≠ none) (hps : st.preShift = false) :
    loop_check inp beh st =
      (match inactivity_boundary inp beh (inp.now - st.lastActivity)
          (ticker_step inp.now (inp.now - st.lastActivity)
            (after_end_flag (recompute_bounds_if_needed st inp.nowLocal) inp.nowLocal)
            (recompute_bounds_if_needed st inp.nowLocal)) with
       | Except.error e3 =>
         (ticker_step inp.now (inp.now - st.lastActivity)
            (after_end_flag (recompute_bounds_if_needed st inp.nowLocal) inp.nowLocal)
            (recompute_bounds_if_needed st inp.nowLocal), e3, false)
       | Except.ok (st5, e3) =>
         let s6 := if st5.preShift = false
                   then maybe_take_random_screenshot inp.minsShot beh st5
                   else (st5, [])
         (s6.1, e3 ++ s6.2, true)) := by
  unfold loop_check
  dsimp only
  rw [login_reminder_of_user inp.now st hne,
    pre_shift_step_of_not_preshift inp beh st hps]
  simp


/-- Full characterization of one `_loop_check` tick for a logged-in,
non-pre-shift session with all collaborator calls succeeding: the next
tick is scheduled; user, pre-shift flag, last-activity and
active-streak fields are unchanged; the debounce flag ends set iff it
was set or the idle threshold was reached; the in-flight flag ends set
iff it was set or the transition fired; and the emitted effects are
exactly the transition batch (when the guard held) followed by
screenshot-scheduler effects. -/
theorem loop_check_user_core (inp : TickInput) (st : AppState) (u : UserRec)
    (hcu : st.currentUser = some u) (hps : st.preShift = false) :
    (loop_check inp allOk st).2.2 = true ∧
    (loop_check inp allOk st).1.currentUser = some u ∧
    (loop_check inp allOk st).1.preShift = false ∧
    (loop_check inp allOk st).1.lastActivity = st.lastActivity ∧
    (loop_check inp allOk st).1.activeSince = st.activeSince ∧
    (loop_check inp allOk st).1.inactiveSent =
      (st.inactiveSent || decide (INACTIVITY_SECONDS ≤ inp.now - st.lastActivity)) ∧
    (loop_check inp allOk st).1.recordingInProgress =
      (st.recordingInProgress ||
        (decide (INACTIVITY_SECONDS ≤ inp.now - st.lastActivity) && !st.inactiveSent)) ∧
    ∃ e4 : List Effect,
      (∀ e ∈ e4, e = Effect.screenshotCapture ∨ e = Effect.screenshotInsert) ∧
      (loop_check inp allOk st).2.1 =
        (if INACTIVITY_SECONDS ≤ inp.now - st.lastActivity ∧ st.inactiveSent = false then
          [Effect.recordEvent "inactive" (st.activeSince.map fun a => pyInt (inp.now - a)) inp.eventId,
           Effect.updateStatus "inactive", Effect.notifyInactive,
           Effect.emailDispatch (st.activeSince.map fun a => pyInt (inp.now - a))] ++
          (if st.recordingInProgress then [] else [Effect.recordingDispatch inp.eventId])
         else []) ++ e4 := by
  have hne : st.currentUser ≠ none := by simp [hcu]
  rw [loop_check_user_eq inp allOk st hne hps]
  set st3 := recompute_bounds_if_needed st inp.nowLocal with hst3
  set ae := after_end_flag st3 inp.nowLocal with hae
  set st4 := ticker_step inp.now (inp.now - st.lastActivity) ae st3 with hst4
  obtain ⟨hr1, hr2, hr3, hr4, -, -, -, -, -, -, -, hr12, hr13⟩ :=
    recompute_bounds_frame st inp.nowLocal
  obtain ⟨ht1, ht2, ht3, ht4, -, -, -, -, -, ht10, ht11, -⟩ :=
    ticker_step_frame inp.now (inp.now - st.lastActivity) ae st3
  rw [← hst3] at hr1 hr2 hr3 hr4 hr12 hr13
  rw [← hst4] at ht1 ht2 ht3 ht4 ht10 ht11
  have h4cu : st4.currentUser = some u := by rw [ht1, hr1, hcu]
  have h4ps : st4.preShift = false := by rw [ht11, hr13, hps]
  have h4sent : st4.inactiveSent = st.inactiveSent := by rw [ht3, hr3]
  have h4la : st4.lastActivity = st.lastActivity := by rw [ht2, hr2]
  have h4as : st4.activeSince = st.activeSince := by rw [ht4, hr4]
  have h4rec : st4.recordingInProgress = st.recordingInProgress := by rw [ht10, hr12]
  by_cases hGc : INACTIVITY_SECONDS ≤ inp.now - st.lastActivity ∧ st.inactiveSent = false
  · have hG : firesGuard (inp.now - st.lastActivity) st4 := by
      refine ⟨by simp [h4cu], h4ps, hGc.1, by rw [h4sent]; exact hGc.2⟩
    by_cases hrb : st.recordingInProgress = true
    · rw [inactivity_boundary_fired_busy inp _ st4 hG (by rw [h4rec]; exact hrb)]
      dsimp only
      rw [if_pos h4ps]
      obtain ⟨hm1, hm2, hm3, hm4, -, -, -, -, -, -, -, -, hm13, hm14⟩ :=
        maybe_take_frame inp.minsShot allOk
          { st4 with
            inactiveSent := true
            inactiveStartedMono := some inp.now }
      refine ⟨rfl, ?_, ?_, ?_, ?_, ?_, ?_, ?_⟩
      · rw [hm1]; exact h4cu
      · rw [hm14]; exact h4ps
      · rw [hm2]; exact h4la
      · rw [hm4]; exact h4as
      · rw [hm3]; simp [hGc.2, decide_eq_true_eq, hGc.1]
      · rw [hm13]; simp [h4rec, hrb]
      · refine ⟨(maybe_take_random_screenshot inp.minsShot allOk
          { st4 with inactiveSent := true, inactiveStartedMono := some inp.now }).2,
          maybe_take_effects _ _ _, ?_⟩
        rw [if_pos hGc, if_pos hrb]
        rw [h4as]
        simp
    · have hrb2 : st.recordingInProgress = false := by
        revert hrb; cases st.recordingInProgress <;> simp
      rw [inactivity_boundary_fired_free inp _ st4 hG (by rw [h4rec]; exact hrb2)]
      dsimp only
      rw [if_pos h4ps]
      obtain ⟨hm1, hm2, hm3, hm4, -, -, -, -, -, -, -, -, hm13, hm14⟩ :=
        maybe_take_frame inp.minsShot allOk
          { st4 with
            inactiveSent := true
            inactiveStartedMono := some inp.now
            recordingInProgress := true }
      refine ⟨rfl, ?_, ?_, ?_, ?_, ?_, ?_, ?_⟩
      · rw [hm1]; exact h4cu
      · rw [hm14]; exact h4ps
      · rw [hm2]; exact h4la
      · rw [hm4]; exact h4as
      · rw [hm3]; simp [hGc.2, decide_eq_true_eq, hGc.1]
      · rw [hm13]; simp [hGc.2, decide_eq_true_eq, hGc.1]
      · refine ⟨(maybe_take_random_screenshot inp.minsShot allOk
          { st4 with
            inactiveSent := true
            inactiveStartedMono := some inp.now
            recordingInProgress := true }).2,
          maybe_take_effects _ _ _, ?_⟩
        rw [if_pos hGc, if_neg (by simp [hrb2])]
        rw [h4as]
        simp
  · have hG : ¬ firesGuard (inp.now - st.lastActivity) st4 := by
      intro h
      exact hGc ⟨h.2.2.1, by rw [← h4sent]; exact h.2.2.2⟩
    rw [inactivity_boundary_not_fired inp allOk _ st4 hG]
    dsimp only
    rw [if_pos h4ps]
    obtain ⟨hm1, hm2, hm3, hm4, -, -, -, -, -, -, -, -, hm13, hm14⟩ :=
      maybe_take_frame inp.minsShot allOk st4
    refine ⟨rfl, ?_, ?_, ?_, ?_, ?_, ?_, ?_⟩
    · rw [hm1]; exact h4cu
    · rw [hm14]; exact h4ps
    · rw [hm2]; exact h4la
    · rw [hm4]; exact h4as
    · rw [hm3, h4sent]
      rcases hs : st.inactiveSent with _ | _
      · have : ¬ INACTIVITY_SECONDS ≤ inp.now - st.lastActivity := fun ha => hGc ⟨ha, hs⟩
        simp [this]
      · simp
    · rw [hm13, h4rec]
      rcases hs : st.inactiveSent with _ | _
      · have : ¬ INACTIVITY_SECONDS ≤ inp.now - st.lastActivity := fun ha => hGc ⟨ha, hs⟩
        simp [this]
      · simp
    · refine ⟨(maybe_take_random_screenshot inp.minsShot allOk st4).2,
        maybe_take_effects _ _ _, ?_⟩
      rw [if_neg hGc]

/-- No section of the tick loop ever assigns `overtime_segment_start`:
a tick preserves `overtimeStartedMono` whatever the session state and
whatever the collaborator outcomes. -/
theorem loop_check_overtime_marker (inp : TickInput) (beh : StoreBehavior) (st : AppState) :
    (loop_check inp beh st).1.overtimeStartedMono = st.overtimeStartedMono := by
  unfold loop_check
  dsimp only
  have hL : (login_reminder inp.now st).1.overtimeStartedMono = st.overtimeStartedMono := by
    rcases login_reminder_state inp.now st with h1 | h1 <;> rw [h1]
  rcases hpre : pre_shift_step inp beh (login_reminder inp.now st).1 with _ | ⟨st2, e2⟩ <;>
    dsimp only
  · exact hL
  · obtain ⟨-, -, -, -, -, hp6, -, -, -⟩ :=
      pre_shift_step_frame inp beh (login_reminder inp.now st).1 st2 e2 hpre
    obtain ⟨-, -, -, -, -, -, -, -, -, -, hr11, -, -⟩ :=
      recompute_bounds_frame st2 inp.nowLocal
    obtain ⟨-, -, -, -, -, -, -, -, ht9, -, -, -⟩ :=
      ticker_step_frame inp.now (inp.now - st.lastActivity)
        (after_end_flag (recompute_bounds_if_needed st2 inp.nowLocal) inp.nowLocal)
        (recompute_bounds_if_needed st2 inp.nowLocal)
    rcases hib : inactivity_boundary inp beh (inp.now - st.lastActivity)
        (ticker_step inp.now (inp.now - st.lastActivity)
          (after_end_flag (recompute_bounds_if_needed st2 inp.nowLocal) inp.nowLocal)
          (recompute_bounds_if_needed st2 inp.nowLocal)) with e3 | p <;>
      dsimp only
    · rw [ht9, hr11, hp6, hL]
    · obtain ⟨st5, e3⟩ := p
      obtain ⟨-, -, -, -, -, -, -, -, -, -, -, -, -, hb14, -⟩ :=
        inactivity_boundary_ok_frame inp beh (inp.now - st.lastActivity) _ st5 e3 hib
      by_cases h5 : st5.preShift = false
      · rw [if_pos h5]
        obtain ⟨-, -, -, -, -, -, -, -, -, -, -, hm12, -, -⟩ :=
          maybe_take_frame inp.minsShot beh st5
        rw [hm12, hb14, ht9, hr11, hp6, hL]
      · rw [if_neg h5]
        rw [hb14, ht9, hr11, hp6, hL]

theorem pyInt_of_nonneg (q : ℚ) (h : 0 ≤ q) : pyInt q = ⌊q⌋ := by
  unfold pyInt
  rw [if_pos h]

theorem pyInt_toNat_le (q : ℚ) (h : 1 ≤ q) : ((pyInt q).toNat : ℚ) ≤ q := by
  rw [pyInt_of_nonneg q (by linarith)]
  have h1 : (1 : ℤ) ≤ ⌊q⌋ := by
    rwa [Int.le_floor, Int.cast_one]
  have h2 : ((⌊q⌋.toNat : ℤ) : ℚ) = ((⌊q⌋ : ℤ) : ℚ) := by
    exact_mod_cast congrArg (fun z : ℤ => (z : ℚ)) (Int.toNat_of_nonneg (by omega))
  calc ((⌊q⌋.toNat : ℕ) : ℚ) = ((⌊q⌋ : ℤ) : ℚ) := by exact_mod_cast h2
    _ ≤ q := Int.floor_le q

theorem pyInt_toNat_pos (q : ℚ) (h : 1 ≤ q) : 1 ≤ (pyInt q).toNat := by
  rw [pyInt_of_nonneg q (by linarith)]
  have h1 : (1 : ℤ) ≤ ⌊q⌋ := by
    rwa [Int.le_floor, Int.cast_one]
  omega

theorem ticker_step_no_tick (now idle : ℚ) (ae : Bool) (st : AppState)
    (h : now - st.lastTick < 1) : ticker_step now idle ae st = st := by
  unfold ticker_step
  rw [if_neg (by linarith)]

theorem ticker_step_tick (now idle : ℚ) (ae : Bool) (st : AppState)
    (h : 1 ≤ now - st.lastTick) :
    (ticker_step now idle ae st).lastTick =
      st.lastTick + ((pyInt (now - st.lastTick)).toNat : ℚ) ∧
    (ticker_step now idle ae st).activeSecondsToday +
        (ticker_step now idle ae st).inactiveSecondsToday =
      st.activeSecondsToday + st.inactiveSecondsToday +
        (if st.currentUser ≠ none ∧ st.preShift = false then
          (pyInt (now - st.lastTick)).toNat else 0) := by
  unfold ticker_step
  rw [if_pos h]
  dsimp only
  split_ifs <;> simp <;> omega

theorem ticker_step_routed (now idle : ℚ) (ae : Bool) (st : AppState)
    (h : 1 ≤ now - st.lastTick) (hcu : st.currentUser ≠ none) (hps : st.preShift = false) :
    (idle < INACTIVITY_SECONDS →
      (ticker_step now idle ae st).activeSecondsToday =
        st.activeSecondsToday + (pyInt (now - st.lastTick)).toNat ∧
      (ticker_step now idle ae st).inactiveSecondsToday = st.inactiveSecondsToday ∧
      (ticker_step now idle ae st).overtimeSecondsToday =
        st.overtimeSecondsToday +
          (if ae then (pyInt (now - st.lastTick)).toNat else 0)) ∧
    (¬ idle < INACTIVITY_SECONDS →
      (ticker_step now idle ae st).activeSecondsToday = st.activeSecondsToday ∧
      (ticker_step now idle ae st).inactiveSecondsToday =
        st.inactiveSecondsToday + (pyInt (now - st.lastTick)).toNat ∧
      (ticker_step now idle ae st).overtimeSecondsToday = st.overtimeSecondsToday) := by
  unfold ticker_step
  rw [if_pos h]
  dsimp only
  rw [if_pos ⟨hcu, hps⟩]
  constructor
  · intro hidle
    rw [if_pos hidle]
    cases ae <;> simp
  · intro hidle
    rw [if_neg hidle]
    simp

theorem after_end_cached (st : AppState) (nowLocal : ℚ) (u : UserRec) (te : ℚ)
    (hcu : st.currentUser = some u) (hte : st.todayShiftEnd = some te) :
    after_end_flag (recompute_bounds_if_needed st nowLocal) nowLocal =
      decide (te ≤ nowLocal) := by
  have hrec : recompute_bounds_if_needed st nowLocal = st := by
    unfold recompute_bounds_if_needed
    rw [if_neg (by simp [hte])]
  rw [hrec]
  unfold after_end_flag
  rw [hcu, hte]

theorem loop_check_ticker_char (inp : TickInput) (beh : StoreBehavior) (st : AppState) :
    ((loop_check inp beh st).1.lastTick = st.lastTick ∧
     (loop_check inp beh st).1.activeSecondsToday = st.activeSecondsToday ∧
     (loop_check inp beh st).1.inactiveSecondsToday = st.inactiveSecondsToday ∧
     (loop_check inp beh st).1.overtimeSecondsToday = st.overtimeSecondsToday) ∨
    (∃ (ae : Bool) (st3 : AppState),
      st3.lastTick = st.lastTick ∧
      st3.activeSecondsToday = st.activeSecondsToday ∧
      st3.inactiveSecondsToday = st.inactiveSecondsToday ∧
      st3.overtimeSecondsToday = st.overtimeSecondsToday ∧
      (st.preShift = false → st3.preShift = false ∧ st3.currentUser = st.currentUser) ∧
      (loop_check inp beh st).1.lastTick =
        (ticker_step inp.now (inp.now - st.lastActivity) ae st3).lastTick ∧
      (loop_check inp beh st).1.activeSecondsToday =
        (ticker_step inp.now (inp.now - st.lastActivity) ae st3).activeSecondsToday ∧
      (loop_check inp beh st).1.inactiveSecondsToday =
        (ticker_step inp.now (inp.now - st.lastActivity) ae st3).inactiveSecondsToday ∧
      (loop_check inp beh st).1.overtimeSecondsToday =
        (ticker_step inp.now (inp.now - st.lastActivity) ae st3).overtimeSecondsToday) := by
  have hL : (login_reminder inp.now st).1.lastTick = st.lastTick ∧
      (login_reminder inp.now st).1.activeSecondsToday = st.activeSecondsToday ∧
      (login_reminder inp.now st).1.inactiveSecondsToday = st.inactiveSecondsToday ∧
      (login_reminder inp.now st).1.overtimeSecondsToday = st.overtimeSecondsToday ∧
      (login_reminder inp.now st).1.preShift = st.preShift ∧
      (login_reminder inp.now st).1.currentUser = st.currentUser := by
    rcases login_reminder_state inp.now st with h1 | h1 <;> rw [h1] <;>
      exact ⟨rfl, rfl, rfl, rfl, rfl, rfl⟩
  unfold loop_check
  dsimp only
  rcases hpre : pre_shift_step inp beh (login_reminder inp.now st).1 with _ | ⟨st2, e2⟩ <;>
    dsimp only
  · exact Or.inl ⟨hL.1, hL.2.1, hL.2.2.1, hL.2.2.2.1⟩
  · obtain ⟨hp1, hp2, hp3, hp4, hp5, -, -, -, -⟩ :=
      pre_shift_step_frame inp beh (login_reminder inp.now st).1 st2 e2 hpre
    obtain ⟨hrc1, -, -, -, hrc5, hrc6, hrc7, hrc8, -, -, -, -, hrc13⟩ :=
      recompute_bounds_frame st2 inp.nowLocal
    have hst3 : (recompute_bounds_if_needed st2 inp.nowLocal).lastTick = st.lastTick ∧
        (recompute_bounds_if_needed st2 inp.nowLocal).activeSecondsToday = st.activeSecondsToday ∧
        (recompute_bounds_if_needed st2 inp.nowLocal).inactiveSecondsToday = st.inactiveSecondsToday ∧
        (recompute_bounds_if_needed st2 inp.nowLocal).overtimeSecondsToday = st.overtimeSecondsToday := by
      refine ⟨?_, ?_, ?_, ?_⟩
      · rw [hrc8, hp5, hL.1]
      · rw [hrc5, hp2, hL.2.1]
      · rw [hrc6, hp3, hL.2.2.1]
      · rw [hrc7, hp4, hL.2.2.2.1]
    have hps3 : st.preShift = false →
        (recompute_bounds_if_needed st2 inp.nowLocal).preShift = false ∧
        (recompute_bounds_if_needed st2 inp.nowLocal).currentUser = st.currentUser := by
      intro hps
      have hpsid := pre_shift_step_of_not_preshift inp beh (login_reminder inp.now st).1
        (by rw [hL.2.2.2.2.1]; exact hps)
      rw [hpre] at hpsid
      simp only [Option.some.injEq, Prod.mk.injEq] at hpsid
      obtain ⟨h2eq, -⟩ := hpsid
      constructor
      · rw [hrc13, h2eq, hL.2.2.2.2.1]; exact hps
      · rw [hrc1, h2eq, hL.2.2.2.2.2]
    rcases hib : inactivity_boundary inp beh (inp.now - st.lastActivity)
        (ticker_step inp.now (inp.now - st.lastActivity)
          (after_end_flag (recompute_bounds_if_needed st2 inp.nowLocal) inp.nowLocal)
          (recompute_bounds_if_needed st2 inp.nowLocal)) with e3 | p <;>
      dsimp only
    · exact Or.inr ⟨after_end_flag (recompute_bounds_if_needed st2 inp.nowLocal) inp.nowLocal,
        recompute_bounds_if_needed st2 inp.nowLocal,
        hst3.1, hst3.2.1, hst3.2.2.1, hst3.2.2.2, hps3, rfl, rfl, rfl, rfl⟩
    · obtain ⟨st5, e3⟩ := p
      obtain ⟨-, -, -, -, hb5, hb6, hb7, hb8, -, -, -, -, -, -, -⟩ :=
        inactivity_boundary_ok_frame inp beh (inp.now - st.lastActivity) _ st5 e3 hib
      refine Or.inr ⟨after_end_flag (recompute_bounds_if_needed st2 inp.nowLocal) inp.nowLocal,
        recompute_bounds_if_needed st2 inp.nowLocal,
        hst3.1, hst3.2.1, hst3.2.2.1, hst3.2.2.2, hps3, ?_, ?_, ?_, ?_⟩ <;>
        by_cases h5 : st5.preShift = false
      · rw [if_pos h5]
        obtain ⟨-, -, -, -, -, -, -, hm8, -, -, -, -, -, -⟩ :=
          maybe_take_frame inp.minsShot beh st5
        rw [hm8, hb8]
      · rw [if_neg h5]; exact hb8
      · rw [if_pos h5]
        obtain ⟨-, -, -, -, hm5, -, -, -, -, -, -, -, -, -⟩ :=
          maybe_take_frame inp.minsShot beh st5
        rw [hm5, hb5]
      · rw [if_neg h5]; exact hb5
      · rw [if_pos h5]
        obtain ⟨-, -, -, -, -, hm6, -, -, -, -, -, -, -, -⟩ :=
          maybe_take_frame inp.minsShot beh st5
        rw [hm6, hb6]
      · rw [if_neg h5]; exact hb6
      · rw [if_pos h5]
        obtain ⟨-, -, -, -, -, -, hm7, -, -, -, -, -, -, -⟩ :=
          maybe_take_frame inp.minsShot beh st5
        rw [hm7, hb7]
      · rw [if_neg h5]; exact hb7

theorem run_ticks_cons (beh : StoreBehavior) (inp : TickInput)
    (rest : List TickInput) (st : AppState) :
    run_ticks beh (inp :: rest) st =
      if (loop_check inp beh st).2.2 = true then
        ((run_ticks beh rest (loop_check inp beh st).1).1,
         (loop_check inp beh st).2.1 ++ (run_ticks beh rest (loop_check inp beh st).1).2)
      else ((loop_check inp beh st).1, (loop_check inp beh st).2.1) := by
  conv_lhs => rw [run_ticks]
  rcases hlc : loop_check inp beh st with ⟨st2, effs, b⟩
  rcases b with _ | _ <;> simp [hlc]

theorem loop_check_counter_facts (inp : TickInput) (beh : StoreBehavior)
    (st : AppState) (h : st.lastTick ≤ inp.now) :
    st.lastTick ≤ (loop_check inp beh st).1.lastTick ∧
    (loop_check inp beh st).1.lastTick ≤ inp.now ∧
    ((loop_check inp beh st).1.activeSecondsToday +
        (loop_check inp beh st).1.inactiveSecondsToday : ℚ) ≤
      (st.activeSecondsToday + st.inactiveSecondsToday : ℚ) +
        ((loop_check inp beh st).1.lastTick - st.lastTick) := by
  rcases loop_check_ticker_char inp beh st with ⟨q1, q2, q3, -⟩ |
    ⟨ae, st3, e1, e2, e3, -, -, q1, q2, q3, -⟩
  · rw [q1, q2, q3]
    refine ⟨le_refl _, h, ?_⟩
    simp
  · by_cases h1 : 1 ≤ inp.now - st3.lastTick
    · obtain ⟨tl, tc⟩ := ticker_step_tick inp.now (inp.now - st.lastActivity) ae st3 h1
      rw [e1] at tl h1
      have hd1 : 1 ≤ ((pyInt (inp.now - st.lastTick)).toNat : ℚ) := by
        exact_mod_cast pyInt_toNat_pos _ h1
      have hd2 : ((pyInt (inp.now - st.lastTick)).toNat : ℚ) ≤ inp.now - st.lastTick :=
        pyInt_toNat_le _ h1
      refine ⟨?_, ?_, ?_⟩
      · rw [q1, tl]; linarith
      · rw [q1, tl]; linarith
      · have hsum : (loop_check inp beh st).1.activeSecondsToday +
            (loop_check inp beh st).1.inactiveSecondsToday =
            st.activeSecondsToday + st.inactiveSecondsToday +
              (if st3.currentUser ≠ none ∧ st3.preShift = false then
                (pyInt (inp.now - st.lastTick)).toNat else 0) := by
          rw [q2, q3, tc, e1, e2, e3]
        have hlt : (loop_check inp beh st).1.lastTick - st.lastTick =
            ((pyInt (inp.now - st.lastTick)).toNat : ℚ) := by
          rw [q1, tl]; ring
        rw [hlt]
        have hle : (if st3.currentUser ≠ none ∧ st3.preShift = false then
            (pyInt (inp.now - st.lastTick)).toNat else 0) ≤
            (pyInt (inp.now - st.lastTick)).toNat := by split_ifs <;> omega
        have hnat : (loop_check inp beh st).1.activeSecondsToday +
            (loop_check inp beh st).1.inactiveSecondsToday ≤
            st.activeSecondsToday + st.inactiveSecondsToday +
              (pyInt (inp.now - st.lastTick)).toNat := by omega
        exact_mod_cast hnat
    · have hts := ticker_step_no_tick inp.now (inp.now - st.lastActivity) ae st3
        (by linarith)
      rw [hts] at q1 q2 q3
      rw [q1, q2, q3, e1, e2, e3]
      refine ⟨le_refl _, h, ?_⟩
      simp


/-- The tick instants of a run are nondecreasing and start no earlier
than `t`. -/
def ticksMono (t : ℚ) : List TickInput → Prop
  | [] => True
  | inp :: rest => t ≤ inp.now ∧ ticksMono inp.now rest

/-- The monotonic instant of the last tick of a run (or `t` when the
run is empty). -/
def endTime (t : ℚ) : List TickInput → ℚ
  | [] => t
  | inp :: rest => endTime inp.now rest

theorem ticksMono_mono (t t2 : ℚ) (l : List TickInput) (h : t2 ≤ t)
    (hm : ticksMono t l) : ticksMono t2 l := by
  cases l with
  | nil => trivial
  | cons inp rest => exact ⟨le_trans h hm.1, hm.2⟩

theorem le_endTime (t : ℚ) (l : List TickInput) (h : ticksMono t l) :
    t ≤ endTime t l := by
  induction l generalizing t with
  | nil => exact le_refl t
  | cons inp rest ih => exact le_trans h.1 (ih inp.now h.2)

theorem run_ticks_counter_bound (beh : StoreBehavior) (inps : List TickInput)
    (st : AppState) (h : ticksMono st.lastTick inps) :
    st.lastTick ≤ (run_ticks beh inps st).1.lastTick ∧
    (run_ticks beh inps st).1.lastTick ≤ endTime st.lastTick inps ∧
    ((run_ticks beh inps st).1.activeSecondsToday +
        (run_ticks beh inps st).1.inactiveSecondsToday : ℚ) ≤
      (st.activeSecondsToday + st.inactiveSecondsToday : ℚ) +
        ((run_ticks beh inps st).1.lastTick - st.lastTick) := by
  induction inps generalizing st with
  | nil =>
    refine ⟨le_refl _, le_refl _, ?_⟩
    simp [run_ticks]
  | cons inp rest ih =>
    obtain ⟨f1, f2, f3⟩ := loop_check_counter_facts inp beh st h.1
    rw [run_ticks_cons]
    by_cases hb : (loop_check inp beh st).2.2 = true
    · rw [if_pos hb]
      dsimp only
      have hmono : ticksMono (loop_check inp beh st).1.lastTick rest :=
        ticksMono_mono _ _ _ f2 h.2
      obtain ⟨g1, g2, g3⟩ := ih (loop_check inp beh st).1 hmono
      refine ⟨le_trans f1 g1, ?_, ?_⟩
      · calc (run_ticks beh rest (loop_check inp beh st).1).1.lastTick
            ≤ endTime (loop_check inp beh st).1.lastTick rest := g2
          _ ≤ endTime inp.now rest := by
              clear * - f2 h
              induction rest generalizing inp with
              | nil => exact f2
              | cons i2 r2 ih2 => exact le_refl _
          _ = endTime st.lastTick (inp :: rest) := rfl
      · calc ((run_ticks beh rest (loop_check inp beh st).1).1.activeSecondsToday +
              (run_ticks beh rest (loop_check inp beh st).1).1.inactiveSecondsToday : ℚ)
            ≤ ((loop_check inp beh st).1.activeSecondsToday +
                (loop_check inp beh st).1.inactiveSecondsToday : ℚ) +
              ((run_ticks beh rest (loop_check inp beh st).1).1.lastTick -
                (loop_check inp beh st).1.lastTick) := g3
          _ ≤ (st.activeSecondsToday + st.inactiveSecondsToday : ℚ) +
              ((run_ticks beh rest (loop_check inp beh st).1).1.lastTick - st.lastTick) := by
              linarith
    · rw [if_neg hb]
      dsimp only
      refine ⟨f1, ?_, f3⟩
      calc (loop_check inp beh st).1.lastTick ≤ inp.now := f2
        _ ≤ endTime inp.now rest := le_endTime inp.now rest h.2
        _ = endTime st.lastTick (inp :: rest) := rfl

/-- Recognizer for a persisted "inactive" event record. -/
def isInactiveEventRecord : Effect → Bool
  | Effect.recordEvent k _ _ => k == "inactive"
  | _ => false

/-- Number of "inactive" event records in an effect trace. -/
def countInactiveRecords (l : List Effect) : ℕ := l.countP isInactiveEventRecord

theorem countInactiveRecords_append (a b : List Effect) :
    countInactiveRecords (a ++ b) = countInactiveRecords a + countInactiveRecords b :=
  List.countP_append _ _ _

theorem countInactiveRecords_screens (l : List Effect)
    (h : ∀ e ∈ l, e = Effect.screenshotCapture ∨ e = Effect.screenshotInsert) :
    countInactiveRecords l = 0 := by
  refine List.countP_eq_zero.mpr ?_
  intro e he
  rcases h e he with h1 | h1 <;> simp [h1, isInactiveEventRecord]

theorem loop_check_count (inp : TickInput) (st : AppState) (u : UserRec)
    (hcu : st.currentUser = some u) (hps : st.preShift = false) :
    countInactiveRecords (loop_check inp allOk st).2.1 =
      if INACTIVITY_SECONDS ≤ inp.now - st.lastActivity ∧ st.inactiveSent = false
      then 1 else 0 := by
  obtain ⟨-, -, -, -, -, -, -, e4, he4, heq⟩ := loop_check_user_core inp st u hcu hps
  rw [heq, countInactiveRecords_append, countInactiveRecords_screens e4 he4]
  split_ifs with hg hb <;>
    simp [countInactiveRecords, isInactiveEventRecord,
      List.countP_cons, List.countP_nil, List.countP_append]

theorem run_ticks_count_zero (inps : List TickInput) (st : AppState) (u : UserRec)
    (hcu : st.currentUser = some u) (hps : st.preShift = false)
    (hsent : st.inactiveSent = true) :
    countInactiveRecords (run_ticks allOk inps st).2 = 0 := by
  induction inps generalizing st with
  | nil => simp [run_ticks, countInactiveRecords]
  | cons inp rest ih =>
    obtain ⟨hsched, hcu2, hps2, -, -, hsent2, -, -⟩ := loop_check_user_core inp st u hcu hps
    rw [run_ticks_cons, if_pos hsched]
    dsimp only
    rw [countInactiveRecords_append]
    rw [loop_check_count inp st u hcu hps, if_neg (by simp [hsent])]
    rw [ih (loop_check inp allOk st).1 hcu2 hps2 (by rw [hsent2, hsent]; simp)]

theorem run_ticks_count_le_one (inps : List TickInput) (st : AppState) (u : UserRec)
    (hcu : st.currentUser = some u) (hps : st.preShift = false) :
    countInactiveRecords (run_ticks allOk inps st).2 ≤ 1 := by
  induction inps generalizing st with
  | nil => simp [run_ticks, countInactiveRecords]
  | cons inp rest ih =>
    obtain ⟨hsched, hcu2, hps2, -, -, hsent2, -, -⟩ := loop_check_user_core inp st u hcu hps
    rw [run_ticks_cons, if_pos hsched]
    dsimp only
    rw [countInactiveRecords_append]
    rcases hs : st.inactiveSent with _ | _
    · by_cases hg : INACTIVITY_SECONDS ≤ inp.now - st.lastActivity
      · rw [loop_check_count inp st u hcu hps, if_pos ⟨hg, hs⟩]
        rw [run_ticks_count_zero rest (loop_check inp allOk st).1 u hcu2 hps2
          (by rw [hsent2, hs]; simp [hg])]
      · rw [loop_check_count inp st u hcu hps, if_neg (by tauto)]
        have := ih (loop_check inp allOk st).1 hcu2 hps2
        omega
    · rw [loop_check_count inp st u hcu hps, if_neg (by simp [hs])]
      rw [run_ticks_count_zero rest (loop_check inp allOk st).1 u hcu2 hps2
        (by rw [hsent2, hs]; simp)]
      omega

/-! ## Claim theorems -/

/-- C6: the computed shift window combines each time-of-day with
today's date and adds 24 h to the end when `end ≤ start`, so
`today_shift_end` is always strictly later than `today_shift_start`,
overnight shifts included. -/
theorem C6_shift_window_ordered (u : UserRec) (nowLocal : ℚ)
    (hs : u.shiftStartSec < 86400) :
    (compute_today_bounds u nowLocal).1 < (compute_today_bounds u nowLocal).2 := by
  unfold compute_today_bounds
  dsimp only
  have hs2 : ((u.shiftStartSec : ℤ) : ℚ) < 86400 := by exact_mod_cast hs
  split_ifs with h
  · have h2 : ((⌊nowLocal / 86400⌋ * 86400 + (u.shiftStartSec : ℤ)) : ℤ) <
        ⌊nowLocal / 86400⌋ * 86400 + ((u.shiftEndSec.getD 64800 : ℕ) : ℤ) + 86400 := by
      have hs3 : (u.shiftStartSec : ℤ) < 86400 := by exact_mod_cast hs
      omega
    exact_mod_cast h2
  · have h2 : ((⌊nowLocal / 86400⌋ * 86400 + (u.shiftStartSec : ℤ)) : ℤ) <
        ⌊nowLocal / 86400⌋ * 86400 + ((u.shiftEndSec.getD 64800 : ℕ) : ℤ) := by
      omega
    exact_mod_cast h2

/-- C6 witness: an overnight shift 22:00:00-06:00:00 on local day 1
yields a window whose end is strictly later than its start. -/
theorem C6_shift_window_ordered_witness :
    (⟨79200, some 21600, "n", "u", "e", "d"⟩ : UserRec).shiftStartSec < 86400 ∧
    (compute_today_bounds ⟨79200, some 21600, "n", "u", "e", "d"⟩ 100000).1 <
      (compute_today_bounds ⟨79200, some 21600, "n", "u", "e", "d"⟩ 100000).2 :=
  ⟨by norm_num,
   C6_shift_window_ordered ⟨79200, some 21600, "n", "u", "e", "d"⟩ 100000 (by norm_num)⟩

/-- C9: whatever the outcome of the capture and of the persist call,
the recording worker clears the in-flight flag on completion, and the
persist call is issued exactly when the capture succeeded. -/
theorem C9_recording_flag_cleared (captureOk insertRecordingOk : Bool)
    (eventId : ℕ) (st : AppState) :
    (record_and_store captureOk insertRecordingOk eventId st).1.recordingInProgress = false ∧
    (record_and_store captureOk insertRecordingOk eventId st).2 =
      (if captureOk then [Effect.recordingPersist eventId] else []) := by
  unfold record_and_store
  exact ⟨rfl, rfl⟩

/-- C10: `GlobalActivityMonitor.start` is a no-op while the monitor is
already running — it neither changes the state nor starts listeners —
so repeated starts leave at most one listener pair live. -/
theorem C10_monitor_start_idempotent (m : Monitor) (i j k l a b : ℕ)
    (h : m.running = true) :
    m.start i j = (m, []) ∧
    ((m.start k l).1.start a b) = ((m.start k l).1, []) := by
  constructor
  · unfold Monitor.start
    rw [if_pos h]
  · by_cases hr : m.running <;> simp [Monitor.start, hr]

/-- C10 witness: a running monitor is left unchanged by `start`. -/
theorem C10_monitor_start_idempotent_witness :
    (⟨true, some 1, some 2, 0, 15/100⟩ : Monitor).running = true ∧
    (Monitor.start ⟨true, some 1, some 2, 0, 15/100⟩ 3 4 =
      (⟨true, some 1, some 2, 0, 15/100⟩, [])) :=
  ⟨rfl, (C10_monitor_start_idempotent ⟨true, some 1, some 2, 0, 15/100⟩ 3 4 5 6 7 8 rfl).1⟩


/-- C1: for a logged-in, non-pre-shift session with the stores
healthy, a tick persists an "inactive" event exactly when
`idle = now − last_activity ≥ INACTIVITY_SECONDS` and `inactive_sent`
is false; the same guard governs the status write, the local toast and
the async email dispatch; a firing tick sets `inactive_sent`; and over
any run of ticks with no intervening activity callback, at most one
"inactive" event is recorded. -/
theorem C1_inactive_transition (inp : TickInput) (st : AppState) (u : UserRec)
    (hcu : st.currentUser = some u) (hps : st.preShift = false) :
    (countInactiveRecords (loop_check inp allOk st).2.1 =
      if INACTIVITY_SECONDS ≤ inp.now - st.lastActivity ∧ st.inactiveSent = false
      then 1 else 0) ∧
    ((Effect.updateStatus "inactive" ∈ (loop_check inp allOk st).2.1 ∧
      Effect.notifyInactive ∈ (loop_check inp allOk st).2.1 ∧
      Effect.emailDispatch (st.activeSince.map fun a => pyInt (inp.now - a)) ∈
        (loop_check inp allOk st).2.1) ↔
      (INACTIVITY_SECONDS ≤ inp.now - st.lastActivity ∧ st.inactiveSent = false)) ∧
    (INACTIVITY_SECONDS ≤ inp.now - st.lastActivity ∧ st.inactiveSent = false →
      (loop_check inp allOk st).1.inactiveSent = true) ∧
    ∀ inps : List TickInput,
      countInactiveRecords (run_ticks allOk inps st).2 ≤ 1 := by
  obtain ⟨-, -, -, -, -, hsent, -, e4, he4, heq⟩ := loop_check_user_core inp st u hcu hps
  refine ⟨loop_check_count inp st u hcu hps, ?_, ?_, ?_⟩
  · constructor
    · rintro ⟨hm, -, -⟩
      by_contra hG
      rw [heq, if_neg hG] at hm
      simp only [List.nil_append] at hm
      rcases he4 _ hm with h1 | h1 <;> simp at h1
    · intro hG
      rw [heq, if_pos hG]
      refine ⟨?_, ?_, ?_⟩ <;> (apply List.mem_append_left; split_ifs <;> simp)
  · intro hG
    rw [hsent, hG.2]
    simp [hG.1]
  · intro inps
    exact run_ticks_count_le_one inps st u hcu hps

def C1u : UserRec := ⟨32400, some 64800, "n", "u", "e", "d"⟩

def C1st : AppState :=
  ⟨some C1u, 1000, false, some 990, none, 0, 0, 0, 1000, 0, 0,
   some 1200000, some 118800, some 151200, none, false, false⟩

def C1inp : TickInput := ⟨1012, 120000, 25, 30, 7⟩

/-- C1 witness: at a concrete tick 12 s after the last activity the
guard holds, and exactly one "inactive" event is recorded. -/
theorem C1_inactive_transition_witness :
    C1st.currentUser = some C1u ∧ C1st.preShift = false ∧
    countInactiveRecords (loop_check C1inp allOk C1st).2.1 = 1 :=
  ⟨rfl, rfl, by
    have h := (C1_inactive_transition C1inp C1st C1u rfl rfl).1
    rw [h, if_pos]
    constructor
    · show INACTIVITY_SECONDS ≤ (1012 : ℚ) - 1000
      norm_num [INACTIVITY_SECONDS]
    · rfl⟩

def C2u : UserRec := ⟨32400, some 64800, "n", "u", "e", "d"⟩

def C2st : AppState :=
  ⟨some C2u, 1010, false, some 990, none, 0, 0, 0, 1000, 0, 0,
   some 1200000, some 118800, some 151200, none, false, false⟩

def C2inp : TickInput := ⟨1012, 152000, 25, 30, 7⟩

/-- C2 counterexample: a tick taken after shift end (local time 152000
≥ today_shift_end 151200), with idle 2 s < threshold and no open
overtime segment, does not set `overtime_segment_start = now` — the
marker stays `None`, contrary to the claim. -/
theorem C2_overtime_counterexample :
    C2st.currentUser ≠ none ∧ C2st.preShift = false ∧
    C2st.overtimeStartedMono = none ∧
    C2st.todayShiftEnd = some 151200 ∧ (151200 : ℚ) ≤ C2inp.nowLocal ∧
    C2inp.now - C2st.lastActivity < INACTIVITY_SECONDS ∧
    (loop_check C2inp allOk C2st).1.overtimeStartedMono ≠ some C2inp.now := by
  refine ⟨by simp [C2st], rfl, rfl, rfl, by norm_num [C2inp],
    by norm_num [C2inp, C2st, INACTIVITY_SECONDS], ?_⟩
  rw [loop_check_overtime_marker]
  simp [C2st]

/-- C2 amended: the tick loop never opens an overtime segment
(`overtime_segment_start` is preserved by every tick, so it stays
`None` for the whole session); overtime is instead accrued directly by
the whole-second ticker, which adds the elapsed whole seconds to
`overtime_seconds_today` on an active after-shift-end tick; and
`_flush_overtime_segment` — reachable only from shutdown — when a
segment is open and a user is logged in computes
`elapsed = int(max(0, now − overtime_segment_start))`, clears the
marker, and iff `elapsed > 0` adds `elapsed` to
`overtime_seconds_today` and persists exactly one overtime record
keyed by today's local date and `elapsed`. -/
theorem C2_overtime_amended :
    (∀ (inp : TickInput) (beh : StoreBehavior) (st : AppState),
      (loop_check inp beh st).1.overtimeStartedMono = st.overtimeStartedMono) ∧
    (∀ (now nowLocal : ℚ) (ok : Bool) (st : AppState) (t0 : ℚ),
      st.overtimeStartedMono = some t0 → st.currentUser ≠ none →
      (flush_overtime_segment now nowLocal ok st).1.overtimeStartedMono = none ∧
      (0 < pyInt (max 0 (now - t0)) →
        (flush_overtime_segment now nowLocal ok st).1.overtimeSecondsToday =
          st.overtimeSecondsToday + (pyInt (max 0 (now - t0))).toNat ∧
        (ok = true →
          (flush_overtime_segment now nowLocal ok st).2 =
            [Effect.overtimeInsert ⌊nowLocal / 86400⌋ (pyInt (max 0 (now - t0))).toNat])) ∧
      (pyInt (max 0 (now - t0)) ≤ 0 →
        (flush_overtime_segment now nowLocal ok st).1.overtimeSecondsToday =
          st.overtimeSecondsToday ∧
        (flush_overtime_segment now nowLocal ok st).2 = [])) ∧
    (∀ (now idle : ℚ) (st : AppState),
      st.currentUser ≠ none → st.preShift = false →
      1 ≤ now - st.lastTick → idle < INACTIVITY_SECONDS →
      (ticker_step now idle true st).overtimeSecondsToday =
        st.overtimeSecondsToday + (pyInt (now - st.lastTick)).toNat) := by
  refine ⟨loop_check_overtime_marker, ?_, ?_⟩
  · intro now nowLocal ok st t0 hseg hcu
    rcases hu : st.currentUser with _ | u
    · exact absurd hu hcu
    unfold flush_overtime_segment
    simp only [hseg, hu]
    by_cases hsec : pyInt (max 0 (now - t0)) ≤ 0
    · rw [if_pos hsec]
      exact ⟨rfl, fun h => absurd h (by omega), fun _ => ⟨rfl, rfl⟩⟩
    · rw [if_neg hsec]
      rcases ok with _ | _
      · rw [if_neg (by simp)]
        exact ⟨rfl, fun _ => ⟨rfl, fun h => by simp at h⟩, fun h => absurd h hsec⟩
      · rw [if_pos rfl]
        exact ⟨rfl, fun _ => ⟨rfl, fun _ => rfl⟩, fun h => absurd h hsec⟩
  · intro now idle st hcu hps h1 hidle
    unfold ticker_step
    rw [if_pos h1]
    dsimp only
    rw [if_pos ⟨hcu, hps⟩, if_pos hidle, if_pos rfl]

def C2seg : AppState :=
  ⟨some C2u, 1010, false, some 990, none, 0, 0, 0, 1000, 0, 0,
   some 1200000, some 118800, some 151200, some 900, false, false⟩

/-- C2 amended witness: flushing a segment opened at monotonic 900 at
monotonic 1000 clears the marker, adds 100 s and persists one record
for local day 1. -/
theorem C2_overtime_amended_witness :
    C2seg.overtimeStartedMono = some 900 ∧ C2seg.currentUser ≠ none ∧
    (flush_overtime_segment 1000 152000 true C2seg).1.overtimeStartedMono = none ∧
    (flush_overtime_segment 1000 152000 true C2seg).1.overtimeSecondsToday =
      C2seg.overtimeSecondsToday + (pyInt (max 0 ((1000 : ℚ) - 900))).toNat := by
  have h := C2_overtime_amended.2.1 1000 152000 true C2seg 900 rfl (by simp [C2seg])
  refine ⟨rfl, by simp [C2seg], h.1, (h.2.1 ?_).1⟩
  norm_num [pyInt]

theorem inactivity_boundary_status_fail (inp : TickInput) (beh : StoreBehavior)
    (idle : ℚ) (st : AppState) (h : firesGuard idle st)
    (hr : beh.recordEventOk = true) (hu : beh.updateStatusOk = false) :
    inactivity_boundary inp beh idle st =
      Except.error [Effect.recordEvent "inactive"
        (st.activeSince.map fun a => pyInt (inp.now - a)) inp.eventId] := by
  unfold inactivity_boundary
  rw [if_pos h]
  simp [hr, hu]

theorem maybe_take_rearm (m : ℕ) (beh : StoreBehavior) (st : AppState)
    (u : UserRec) (ms : ℤ) (hcu : st.currentUser = some u)
    (ht : st.screenshotsTakenToday < MIN_SCREENSHOTS_PER_SHIFT)
    (hms : st.nextScreenshotAfterMs = some ms)
    (hfire : ms - CHECK_INTERVAL_MS ≤ 0) :
    (maybe_take_random_screenshot m beh st).1.nextScreenshotAfterMs =
      some ((m : ℤ) * 60 * 1000) ∧
    Effect.screenshotCapture ∈ (maybe_take_random_screenshot m beh st).2 ∧
    (beh.captureOk = true →
      Effect.screenshotInsert ∈ (maybe_take_random_screenshot m beh st).2) ∧
    (beh.captureOk = true → beh.insertScreenshotOk = true →
      (maybe_take_random_screenshot m beh st).1.screenshotsTakenToday =
        st.screenshotsTakenToday + 1) ∧
    (maybe_take_random_screenshot m beh st).1.screenshotsTakenToday ≤
      st.screenshotsTakenToday + 1 := by
  simp only [maybe_take_random_screenshot, plan_next_random_screenshot, hcu, hms]
  rw [if_neg (by omega)]
  rw [if_pos hfire]
  rcases hc : beh.captureOk with _ | _ <;> rcases hi : beh.insertScreenshotOk with _ | _ <;>
    simp [hc, hi]

def C3u : UserRec := ⟨32400, some 64800, "n", "u", "e", "d"⟩

def C3st : AppState :=
  ⟨some C3u, 1000, false, some 990, none, 0, 0, 0, 1000, 0, 0,
   some 1200000, some 118800, some 151200, none, false, false⟩

def C3stIdle : AppState :=
  ⟨some C3u, 1010, false, some 990, none, 0, 0, 0, 1000, 0, 0,
   some 100, some 118800, some 151200, none, false, false⟩

def C3inp : TickInput := ⟨1012, 120000, 25, 30, 7⟩

def C3seg : AppState :=
  ⟨some C3u, 1010, false, some 990, none, 0, 0, 0, 1000, 0, 0,
   some 1200000, some 118800, some 151200, some 900, false, false⟩

/-- C3: at a tick that crosses the idle threshold, a raised exception
in the unguarded `record_event` (or `update_user_status`) escapes
`_loop_check` before `self.after(...)` runs, so the next tick is not
scheduled — the tick loop halts; by contrast a failing screenshot
capture/insert is swallowed (the capture call is still issued, the
next tick is scheduled), and a failing overtime insert in the flush
helper is swallowed with the in-memory counter still advanced. -/
theorem C3_unguarded_store_calls :
    ((loop_check C3inp ⟨false, true, true, true⟩ C3st).2.2 = false) ∧
    ((loop_check C3inp ⟨true, false, true, true⟩ C3st).2.2 = false) ∧
    ((loop_check C3inp ⟨true, true, false, false⟩ C3stIdle).2.2 = true ∧
      Effect.screenshotCapture ∈ (loop_check C3inp ⟨true, true, false, false⟩ C3stIdle).2.1) ∧
    ((flush_overtime_segment 1000 152000 false C3seg).1.overtimeSecondsToday = 100 ∧
     (flush_overtime_segment 1000 152000 false C3seg).2 = []) := by
  have hG : firesGuard (C3inp.now - C3st.lastActivity)
      (ticker_step C3inp.now (C3inp.now - C3st.lastActivity)
        (after_end_flag (recompute_bounds_if_needed C3st C3inp.nowLocal) C3inp.nowLocal)
        (recompute_bounds_if_needed C3st C3inp.nowLocal)) := by
    obtain ⟨ht1, -, ht3, -, -, -, -, -, -, -, ht11, -⟩ :=
      ticker_step_frame C3inp.now (C3inp.now - C3st.lastActivity)
        (after_end_flag (recompute_bounds_if_needed C3st C3inp.nowLocal) C3inp.nowLocal)
        (recompute_bounds_if_needed C3st C3inp.nowLocal)
    obtain ⟨hr1, -, hr3, -, -, -, -, -, -, -, -, -, hr13⟩ :=
      recompute_bounds_frame C3st C3inp.nowLocal
    refine ⟨?_, ?_, ?_, ?_⟩
    · rw [ht1, hr1]; simp [C3st]
    · rw [ht11, hr13]; rfl
    · show INACTIVITY_SECONDS ≤ C3inp.now - C3st.lastActivity
      norm_num [INACTIVITY_SECONDS, C3inp, C3st]
    · rw [ht3, hr3]; rfl
  refine ⟨?_, ?_, ?_, ?_⟩
  · rw [loop_check_user_eq C3inp ⟨false, true, true, true⟩ C3st (by simp [C3st]) rfl]
    rw [inactivity_boundary_record_fail C3inp ⟨false, true, true, true⟩ _ _ hG rfl]
  · rw [loop_check_user_eq C3inp ⟨true, false, true, true⟩ C3st (by simp [C3st]) rfl]
    rw [inactivity_boundary_status_fail C3inp ⟨true, false, true, true⟩ _ _ hG rfl rfl]
  · have hng : ¬ firesGuard (C3inp.now - C3stIdle.lastActivity)
        (ticker_step C3inp.now (C3inp.now - C3stIdle.lastActivity)
          (after_end_flag (recompute_bounds_if_needed C3stIdle C3inp.nowLocal) C3inp.nowLocal)
          (recompute_bounds_if_needed C3stIdle C3inp.nowLocal)) := by
      rintro ⟨-, -, hidle, -⟩
      norm_num [INACTIVITY_SECONDS, C3inp, C3stIdle] at hidle
    obtain ⟨ht1, -, -, -, ht5, ht6, -, -, -, -, ht11, -⟩ :=
      ticker_step_frame C3inp.now (C3inp.now - C3stIdle.lastActivity)
        (after_end_flag (recompute_bounds_if_needed C3stIdle C3inp.nowLocal) C3inp.nowLocal)
        (recompute_bounds_if_needed C3stIdle C3inp.nowLocal)
    obtain ⟨hr1, -, -, -, -, -, -, -, hr9, hr10, -, -, hr13⟩ :=
      recompute_bounds_frame C3stIdle C3inp.nowLocal
    rw [loop_check_user_eq C3inp ⟨true, true, false, false⟩ C3stIdle (by simp [C3stIdle]) rfl]
    rw [inactivity_boundary_not_fired _ _ _ _ hng]
    dsimp only
    rw [if_pos (by rw [ht11, hr13]; rfl)]
    obtain ⟨-, hcap, -, -, -⟩ := maybe_take_rearm C3inp.minsShot ⟨true, true, false, false⟩
      (ticker_step C3inp.now (C3inp.now - C3stIdle.lastActivity)
        (after_end_flag (recompute_bounds_if_needed C3stIdle C3inp.nowLocal) C3inp.nowLocal)
        (recompute_bounds_if_needed C3stIdle C3inp.nowLocal)) C3u 100
      (by rw [ht1, hr1]; rfl)
      (by rw [ht5, hr9]; norm_num [C3stIdle, MIN_SCREENSHOTS_PER_SHIFT])
      (by rw [ht6, hr10]; rfl)
      (by norm_num [CHECK_INTERVAL_MS])
    exact ⟨rfl, by simpa using hcap⟩
  · have hsec : pyInt (max 0 ((1000 : ℚ) - 900)) = 100 := by norm_num [pyInt]
    unfold flush_overtime_segment
    simp only [C3seg]
    rw [hsec]
    norm_num
    decide

/-- Recognizer for a recording-worker dispatch. -/
def isRecordingDispatch : Effect → Bool
  | Effect.recordingDispatch _ => true
  | _ => false

/-- Number of recording-worker dispatches in an effect trace. -/
def countRecordingDispatches (l : List Effect) : ℕ := l.countP isRecordingDispatch

theorem loop_check_dispatch_count (inp : TickInput) (st : AppState) (u : UserRec)
    (hcu : st.currentUser = some u) (hps : st.preShift = false) :
    countRecordingDispatches (loop_check inp allOk st).2.1 =
      if (INACTIVITY_SECONDS ≤ inp.now - st.lastActivity ∧ st.inactiveSent = false) ∧
          st.recordingInProgress = false then 1 else 0 := by
  obtain ⟨-, -, -, -, -, -, -, e4, he4, heq⟩ := loop_check_user_core inp st u hcu hps
  rw [heq]
  unfold countRecordingDispatches
  rw [List.countP_append, show List.countP isRecordingDispatch e4 = 0 from
    List.countP_eq_zero.mpr
      (fun e he => by rcases he4 e he with h1 | h1 <;> simp [h1, isRecordingDispatch])]
  by_cases hg : INACTIVITY_SECONDS ≤ inp.now - st.lastActivity ∧ st.inactiveSent = false
  · rw [if_pos hg]
    rcases hb : st.recordingInProgress with _ | _ <;>
      simp [hg, isRecordingDispatch, List.countP_cons, List.countP_nil,
        List.countP_append]
  · rw [if_neg hg, if_neg (by tauto)]
    simp

theorem on_global_activity_clears (now : ℚ) (st : AppState) (u : UserRec)
    (hcu : st.currentUser = some u) (hps : st.preShift = false)
    (hsent : st.inactiveSent = true) :
    (on_global_activity now true st).1.lastActivity = now ∧
    (on_global_activity now true st).1.inactiveSent = false ∧
    (on_global_activity now true st).1.activeSince = some now ∧
    (on_global_activity now true st).1.currentUser = st.currentUser ∧
    (on_global_activity now true st).1.preShift = st.preShift ∧
    (on_global_activity now true st).1.recordingInProgress = st.recordingInProgress ∧
    (on_global_activity now true st).2 = [Effect.updateStatus "active"] := by
  unfold on_global_activity
  simp [hcu, hps, hsent]

/-- C4: a recording worker is dispatched only when no recording is in
flight, and the in-flight flag is set together with the dispatch; a
tick whose transition fires while a recording is in flight dispatches
nothing; and across two Inactive transitions separated by one activity
callback, with the first worker still in flight, exactly one dispatch
(hence one recording-persist call) results. -/
theorem C4_recording_mutex (inp : TickInput) (st : AppState) (u : UserRec)
    (hcu : st.currentUser = some u) (hps : st.preShift = false) :
    (st.recordingInProgress = true →
      ∀ eid, Effect.recordingDispatch eid ∉ (loop_check inp allOk st).2.1) ∧
    (∀ eid, Effect.recordingDispatch eid ∈ (loop_check inp allOk st).2.1 →
      st.recordingInProgress = false ∧
      (loop_check inp allOk st).1.recordingInProgress = true) ∧
    (∀ (ta : ℚ) (inp2 : TickInput),
      st.inactiveSent = false → st.recordingInProgress = false →
      INACTIVITY_SECONDS ≤ inp.now - st.lastActivity →
      INACTIVITY_SECONDS ≤ inp2.now - ta →
      countRecordingDispatches
        ((loop_check inp allOk st).2.1 ++
         (on_global_activity ta true (loop_check inp allOk st).1).2 ++
         (loop_check inp2 allOk
           (on_global_activity ta true (loop_check inp allOk st).1).1).2.1) = 1) := by
  have hdc := loop_check_dispatch_count inp st u hcu hps
  obtain ⟨-, hcu1, hps1, -, -, hsent1, hrec1, -, -, -⟩ := loop_check_user_core inp st u hcu hps
  refine ⟨?_, ?_, ?_⟩
  · intro hb eid hmem
    rw [if_neg (by simp [hb])] at hdc
    have : isRecordingDispatch (Effect.recordingDispatch eid) = true := rfl
    have := List.countP_eq_zero.mp hdc _ hmem
    simp [isRecordingDispatch] at this
  · intro eid hmem
    by_cases hcond : (INACTIVITY_SECONDS ≤ inp.now - st.lastActivity ∧
        st.inactiveSent = false) ∧ st.recordingInProgress = false
    · refine ⟨hcond.2, ?_⟩
      rw [hrec1, hcond.2, hcond.1.2]
      simp [hcond.1.1]
    · rw [if_neg hcond] at hdc
      have := List.countP_eq_zero.mp hdc _ hmem
      simp [isRecordingDispatch] at this
  · intro ta inp2 hsent hrec hidle1 hidle2
    unfold countRecordingDispatches
    rw [List.countP_append, List.countP_append]
    obtain ⟨ha1, ha2, -, ha4, ha5, ha6, ha7⟩ :=
      on_global_activity_clears ta (loop_check inp allOk st).1 u hcu1
        hps1 (by rw [hsent1, hsent]; simp [hidle1])
    have hdc2 := loop_check_dispatch_count inp2
      (on_global_activity ta true (loop_check inp allOk st).1).1 u
      (by rw [ha4, hcu1]) (by rw [ha5, hps1])
    rw [if_neg (by
      rintro ⟨-, hb⟩
      rw [ha6, hrec1, hsent, hrec] at hb
      simp [hidle1] at hb)] at hdc2
    rw [if_pos ⟨⟨hidle1, hsent⟩, hrec⟩] at hdc
    unfold countRecordingDispatches at hdc hdc2
    rw [hdc, hdc2, ha7]
    simp [isRecordingDispatch, List.countP_cons, List.countP_nil]


def C4u : UserRec := ⟨32400, some 64800, "n", "u", "e", "d"⟩

def C4st : AppState :=
  ⟨some C4u, 1000, false, some 990, none, 0, 0, 0, 1000, 0, 0,
   some 1200000, some 118800, some 151200, none, false, false⟩

def C4inp1 : TickInput := ⟨1012, 120000, 25, 30, 7⟩

def C4inp2 : TickInput := ⟨1035, 120100, 25, 30, 8⟩

/-- C4 witness: two Inactive transitions 23 s apart with one activity
callback in between and the first worker still in flight produce
exactly one recording dispatch. -/
theorem C4_recording_mutex_witness :
    C4st.currentUser = some C4u ∧ C4st.preShift = false ∧
    countRecordingDispatches
      ((loop_check C4inp1 allOk C4st).2.1 ++
       (on_global_activity 1020 true (loop_check C4inp1 allOk C4st).1).2 ++
       (loop_check C4inp2 allOk
         (on_global_activity 1020 true (loop_check C4inp1 allOk C4st).1).1).2.1) = 1 :=
  ⟨rfl, rfl,
   (C4_recording_mutex C4inp1 C4st C4u rfl rfl).2.2 1020 C4inp2 rfl rfl
     (by norm_num [INACTIVITY_SECONDS, C4inp1, C4st])
     (by norm_num [INACTIVITY_SECONDS, C4inp2])⟩

theorem loop_check_no_tick (inp : TickInput) (beh : StoreBehavior) (st : AppState)
    (h : inp.now - st.lastTick < 1) :
    (loop_check inp beh st).1.lastTick = st.lastTick ∧
    (loop_check inp beh st).1.activeSecondsToday = st.activeSecondsToday ∧
    (loop_check inp beh st).1.inactiveSecondsToday = st.inactiveSecondsToday ∧
    (loop_check inp beh st).1.overtimeSecondsToday = st.overtimeSecondsToday := by
  rcases loop_check_ticker_char inp beh st with ⟨q1, q2, q3, q4⟩ |
    ⟨ae, st3, e1, e2, e3, e4, -, q1, q2, q3, q4⟩
  · exact ⟨q1, q2, q3, q4⟩
  · have hts := ticker_step_no_tick inp.now (inp.now - st.lastActivity) ae st3
      (by rw [e1]; exact h)
    rw [hts] at q1 q2 q3 q4
    rw [q1, q2, q3, q4]
    exact ⟨e1, e2, e3, e4⟩

theorem loop_check_tick_exact (inp : TickInput) (beh : StoreBehavior) (st : AppState)
    (u : UserRec) (hcu : st.currentUser = some u) (hps : st.preShift = false)
    (h : 1 ≤ inp.now - st.lastTick) :
    (loop_check inp beh st).1.lastTick =
      st.lastTick + ((pyInt (inp.now - st.lastTick)).toNat : ℚ) ∧
    (loop_check inp beh st).1.activeSecondsToday +
        (loop_check inp beh st).1.inactiveSecondsToday =
      st.activeSecondsToday + st.inactiveSecondsToday +
        (pyInt (inp.now - st.lastTick)).toNat := by
  have hne : st.currentUser ≠ none := by simp [hcu]
  rw [loop_check_user_eq inp beh st hne hps]
  obtain ⟨hr1, -, -, -, hr5, hr6, -, hr8, -, -, -, -, hr13⟩ :=
    recompute_bounds_frame st inp.nowLocal
  obtain ⟨tl, tc⟩ := ticker_step_tick inp.now (inp.now - st.lastActivity)
    (after_end_flag (recompute_bounds_if_needed st inp.nowLocal) inp.nowLocal)
    (recompute_bounds_if_needed st inp.nowLocal) (by rw [hr8]; exact h)
  rw [hr8] at tl
  rw [if_pos (by rw [hr1, hcu]; simp; rw [hr13]; exact hps)] at tc
  rw [hr5, hr6, hr8] at tc
  rcases hib : inactivity_boundary inp beh (inp.now - st.lastActivity)
      (ticker_step inp.now (inp.now - st.lastActivity)
        (after_end_flag (recompute_bounds_if_needed st inp.nowLocal) inp.nowLocal)
        (recompute_bounds_if_needed st inp.nowLocal)) with e3 | p <;> dsimp only
  · exact ⟨tl, tc⟩
  · obtain ⟨st5, e3⟩ := p
    obtain ⟨-, -, -, -, hb5, hb6, -, hb8, -, -, -, -, -, -, -⟩ :=
      inactivity_boundary_ok_frame inp beh (inp.now - st.lastActivity) _ st5 e3 hib
    by_cases h5 : st5.preShift = false
    · rw [if_pos h5]
      obtain ⟨-, -, -, -, hm5, hm6, -, hm8, -, -, -, -, -, -⟩ :=
        maybe_take_frame inp.minsShot beh st5
      rw [hm8, hb8, hm5, hb5, hm6, hb6]
      exact ⟨tl, tc⟩
    · rw [if_neg h5]
      rw [hb8, hb5, hb6]
      exact ⟨tl, tc⟩

theorem loop_check_tick_routed (inp : TickInput) (beh : StoreBehavior) (st : AppState)
    (u : UserRec) (hcu : st.currentUser = some u) (hps : st.preShift = false)
    (h : 1 ≤ inp.now - st.lastTick) :
    (inp.now - st.lastActivity < INACTIVITY_SECONDS →
      (loop_check inp beh st).1.activeSecondsToday =
        st.activeSecondsToday + (pyInt (inp.now - st.lastTick)).toNat ∧
      (loop_check inp beh st).1.inactiveSecondsToday = st.inactiveSecondsToday ∧
      (loop_check inp beh st).1.overtimeSecondsToday =
        st.overtimeSecondsToday +
          (if after_end_flag (recompute_bounds_if_needed st inp.nowLocal) inp.nowLocal then
            (pyInt (inp.now - st.lastTick)).toNat else 0)) ∧
    (¬ inp.now - st.lastActivity < INACTIVITY_SECONDS →
      (loop_check inp beh st).1.activeSecondsToday = st.activeSecondsToday ∧
      (loop_check inp beh st).1.inactiveSecondsToday =
        st.inactiveSecondsToday + (pyInt (inp.now - st.lastTick)).toNat ∧
      (loop_check inp beh st).1.overtimeSecondsToday = st.overtimeSecondsToday) := by
  have hne : st.currentUser ≠ none := by simp [hcu]
  rw [loop_check_user_eq inp beh st hne hps]
  obtain ⟨hr1, -, -, -, hr5, hr6, hr7, hr8, -, -, -, -, hr13⟩ :=
    recompute_bounds_frame st inp.nowLocal
  obtain ⟨ra, ri⟩ := ticker_step_routed inp.now (inp.now - st.lastActivity)
    (after_end_flag (recompute_bounds_if_needed st inp.nowLocal) inp.nowLocal)
    (recompute_bounds_if_needed st inp.nowLocal)
    (by rw [hr8]; exact h) (by rw [hr1, hcu]; simp) (by rw [hr13]; exact hps)
  rw [hr5, hr6, hr7, hr8] at ra ri
  rcases hib : inactivity_boundary inp beh (inp.now - st.lastActivity)
      (ticker_step inp.now (inp.now - st.lastActivity)
        (after_end_flag (recompute_bounds_if_needed st inp.nowLocal) inp.nowLocal)
        (recompute_bounds_if_needed st inp.nowLocal)) with e3 | p <;> dsimp only
  · exact ⟨ra, ri⟩
  · obtain ⟨st5, e3⟩ := p
    obtain ⟨-, -, -, -, hb5, hb6, hb7, -, -, -, -, -, -, -, -⟩ :=
      inactivity_boundary_ok_frame inp beh (inp.now - st.lastActivity) _ st5 e3 hib
    by_cases h5 : st5.preShift = false
    · rw [if_pos h5]
      obtain ⟨-, -, -, -, hm5, hm6, hm7, -, -, -, -, -, -, -⟩ :=
        maybe_take_frame inp.minsShot beh st5
      rw [hm5, hb5, hm6, hb6, hm7, hb7]
      exact ⟨ra, ri⟩
    · rw [if_neg h5]
      rw [hb5, hb6, hb7]
      exact ⟨ra, ri⟩

/-- C5: the today counters advance only when at least one whole second
has elapsed since the last counter update, by exactly the whole number
of elapsed seconds (for a logged-in, non-pre-shift session), with the
fractional leftover carried in `_last_tick` rather than dropped; the
delta is routed to `active_seconds_today` when the idle time is below
the 10-second threshold and to `inactive_seconds_today` otherwise, and
in the active case it is additionally added to `overtime_seconds_today`
exactly when the tick falls at or after the cached shift end; and over
any monotone run of ticks the active+inactive total never exceeds the
elapsed wall time. -/
theorem C5_counter_accounting (inp : TickInput) (beh : StoreBehavior) (st : AppState) :
    (inp.now - st.lastTick < 1 →
      (loop_check inp beh st).1.lastTick = st.lastTick ∧
      (loop_check inp beh st).1.activeSecondsToday = st.activeSecondsToday ∧
      (loop_check inp beh st).1.inactiveSecondsToday = st.inactiveSecondsToday ∧
      (loop_check inp beh st).1.overtimeSecondsToday = st.overtimeSecondsToday) ∧
    (∀ u : UserRec, st.currentUser = some u → st.preShift = false →
      1 ≤ inp.now - st.lastTick →
      (loop_check inp beh st).1.lastTick =
        st.lastTick + ((pyInt (inp.now - st.lastTick)).toNat : ℚ) ∧
      1 ≤ (pyInt (inp.now - st.lastTick)).toNat ∧
      ((pyInt (inp.now - st.lastTick)).toNat : ℚ) ≤ inp.now - st.lastTick ∧
      (inp.now - st.lastActivity < INACTIVITY_SECONDS →
        (loop_check inp beh st).1.activeSecondsToday =
          st.activeSecondsToday + (pyInt (inp.now - st.lastTick)).toNat ∧
        (loop_check inp beh st).1.inactiveSecondsToday = st.inactiveSecondsToday ∧
        (loop_check inp beh st).1.overtimeSecondsToday =
          st.overtimeSecondsToday +
            (if after_end_flag (recompute_bounds_if_needed st inp.nowLocal) inp.nowLocal then
              (pyInt (inp.now - st.lastTick)).toNat else 0)) ∧
      (¬ inp.now - st.lastActivity < INACTIVITY_SECONDS →
        (loop_check inp beh st).1.activeSecondsToday = st.activeSecondsToday ∧
        (loop_check inp beh st).1.inactiveSecondsToday =
          st.inactiveSecondsToday + (pyInt (inp.now - st.lastTick)).toNat ∧
        (loop_check inp beh st).1.overtimeSecondsToday = st.overtimeSecondsToday) ∧
      (∀ te : ℚ, st.todayShiftEnd = some te →
        after_end_flag (recompute_bounds_if_needed st inp.nowLocal) inp.nowLocal =
          decide (te ≤ inp.nowLocal))) ∧
    (∀ inps : List TickInput, ticksMono st.lastTick inps →
      ((run_ticks beh inps st).1.activeSecondsToday +
          (run_ticks beh inps st).1.inactiveSecondsToday : ℚ) ≤
        (st.activeSecondsToday + st.inactiveSecondsToday : ℚ) +
          (endTime st.lastTick inps - st.lastTick)) := by
  refine ⟨loop_check_no_tick inp beh st, ?_, ?_⟩
  · intro u hcu hps h
    obtain ⟨tl, -⟩ := loop_check_tick_exact inp beh st u hcu hps h
    obtain ⟨ra, ri⟩ := loop_check_tick_routed inp beh st u hcu hps h
    exact ⟨tl, pyInt_toNat_pos _ h, pyInt_toNat_le _ h, ra, ri,
      fun te hte => after_end_cached st inp.nowLocal u te hcu hte⟩
  · intro inps hm
    obtain ⟨g1, g2, g3⟩ := run_ticks_counter_bound beh inps st hm
    linarith

def C5u : UserRec := ⟨32400, some 64800, "n", "u", "e", "d"⟩

def C5st : AppState :=
  ⟨some C5u, 1000, false, some 1000, none, 0, 0, 0, 1000, 0, 0,
   some 1200000, some 118800, some 151200, none, false, false⟩

def C5inpB : TickInput := ⟨1002, 120000, 25, 30, 9⟩

/-- C5 witness: a tick 2 s after the last update during an active,
in-shift session (idle 2 s < 10 s, local time before the cached shift
end) adds exactly 2 s to the active counter and leaves the inactive and
overtime counters untouched; and two ticks 1.2 s and 2 s after login
keep the counter total within the elapsed 2 s. -/
theorem C5_counter_accounting_witness :
    (C5st.currentUser = some C5u ∧ C5st.preShift = false ∧
      1 ≤ C5inpB.now - C5st.lastTick ∧
      C5inpB.now - C5st.lastActivity < INACTIVITY_SECONDS) ∧
    (loop_check C5inpB allOk C5st).1.lastTick =
      C5st.lastTick + ((pyInt (C5inpB.now - C5st.lastTick)).toNat : ℚ) ∧
    (loop_check C5inpB allOk C5st).1.activeSecondsToday =
      C5st.activeSecondsToday + (pyInt (C5inpB.now - C5st.lastTick)).toNat ∧
    (loop_check C5inpB allOk C5st).1.inactiveSecondsToday = C5st.inactiveSecondsToday ∧
    (loop_check C5inpB allOk C5st).1.overtimeSecondsToday =
      C5st.overtimeSecondsToday +
        (if after_end_flag (recompute_bounds_if_needed C5st C5inpB.nowLocal) C5inpB.nowLocal then
          (pyInt (C5inpB.now - C5st.lastTick)).toNat else 0) ∧
    after_end_flag (recompute_bounds_if_needed C5st C5inpB.nowLocal) C5inpB.nowLocal =
      decide ((151200 : ℚ) ≤ C5inpB.nowLocal) ∧
    ticksMono C5st.lastTick [⟨1001 + 1/5, 120000, 25, 30, 7⟩, ⟨1002, 120001, 25, 30, 8⟩] ∧
    ((run_ticks allOk [⟨1001 + 1/5, 120000, 25, 30, 7⟩, ⟨1002, 120001, 25, 30, 8⟩] C5st).1.activeSecondsToday +
        (run_ticks allOk [⟨1001 + 1/5, 120000, 25, 30, 7⟩, ⟨1002, 120001, 25, 30, 8⟩] C5st).1.inactiveSecondsToday : ℚ) ≤
      (C5st.activeSecondsToday + C5st.inactiveSecondsToday : ℚ) +
        (endTime C5st.lastTick [⟨1001 + 1/5, 120000, 25, 30, 7⟩, ⟨1002, 120001, 25, 30, 8⟩] - C5st.lastTick) := by
  have hm : ticksMono C5st.lastTick
      [⟨1001 + 1/5, 120000, 25, 30, 7⟩, ⟨1002, 120001, 25, 30, 8⟩] := by
    refine ⟨?_, ?_, trivial⟩ <;> norm_num [C5st]
  have h1 : (1 : ℚ) ≤ C5inpB.now - C5st.lastTick := by norm_num [C5inpB, C5st]
  have hidle : C5inpB.now - C5st.lastActivity < INACTIVITY_SECONDS := by
    norm_num [C5inpB, C5st, INACTIVITY_SECONDS]
  obtain ⟨tl, -, -, ra, -, tf⟩ :=
    (C5_counter_accounting C5inpB allOk C5st).2.1 C5u rfl rfl h1
  obtain ⟨a1, a2, a3⟩ := ra hidle
  exact ⟨⟨rfl, rfl, h1, hidle⟩, tl, a1, a2, a3, tf 151200 rfl, hm,
    (C5_counter_accounting C5inpB allOk C5st).2.2
      [⟨1001 + 1/5, 120000, 25, 30, 7⟩, ⟨1002, 120001, 25, 30, 8⟩] hm⟩

theorem inactivity_boundary_error_no_screens (inp : TickInput) (beh : StoreBehavior)
    (idle : ℚ) (st : AppState) (e3 : List Effect)
    (h : inactivity_boundary inp beh idle st = Except.error e3) :
    Effect.screenshotCapture ∉ e3 ∧ Effect.screenshotInsert ∉ e3 := by
  unfold inactivity_boundary at h
  by_cases hg : firesGuard idle st
  · rw [if_pos hg] at h
    by_cases hre : beh.recordEventOk = false
    · rw [if_pos hre] at h
      simp at h
      subst h
      simp
    · rw [if_neg hre] at h
      by_cases hus : beh.updateStatusOk = false
      · rw [if_pos hus] at h
        simp at h
        subst h
        simp
      · rw [if_neg hus] at h
        dsimp only at h
        split at h <;> simp at h
  · rw [if_neg hg] at h
    simp at h

theorem inactivity_boundary_ok_no_screens (inp : TickInput) (beh : StoreBehavior)
    (idle : ℚ) (st st5 : AppState) (e3 : List Effect)
    (h : inactivity_boundary inp beh idle st = Except.ok (st5, e3)) :
    Effect.screenshotCapture ∉ e3 ∧ Effect.screenshotInsert ∉ e3 := by
  unfold inactivity_boundary at h
  by_cases hg : firesGuard idle st
  · rw [if_pos hg] at h
    by_cases hre : beh.recordEventOk = false
    · rw [if_pos hre] at h
      simp at h
    · rw [if_neg hre] at h
      by_cases hus : beh.updateStatusOk = false
      · rw [if_pos hus] at h
        simp at h
      · rw [if_neg hus] at h
        dsimp only at h
        split at h <;> simp at h <;> obtain ⟨-, h2⟩ := h <;> subst h2 <;> simp
  · rw [if_neg hg] at h
    simp at h
    obtain ⟨-, h2⟩ := h
    subst h2
    simp

theorem pre_shift_step_stays (inp : TickInput) (beh : StoreBehavior) (st : AppState)
    (hps : st.preShift = true)
    (hstay : ∀ ts, st.todayShiftStart = some ts → 0 < pyInt (ts - inp.nowLocal)) :
    pre_shift_step inp beh st = some (st, []) := by
  unfold pre_shift_step
  rcases hcu : st.currentUser with _ | u <;>
    rcases hts : st.todayShiftStart with _ | ts <;>
    simp [hps]
  intro hle
  exact absurd hle (by have := hstay ts hts; omega)

theorem pre_shift_step_taken (inp : TickInput) (beh : StoreBehavior)
    (st st2 : AppState) (e2 : List Effect)
    (h : pre_shift_step inp beh st = some (st2, e2)) :
    st2.screenshotsTakenToday = st.screenshotsTakenToday ∨
      st2.screenshotsTakenToday = 0 := by
  unfold pre_shift_step start_shift_now plan_next_random_screenshot at h
  repeat' split at h
  all_goals simp only [Option.some.injEq, Prod.mk.injEq, reduceCtorEq] at h
  all_goals obtain ⟨h1, -⟩ := h
  all_goals subst h1
  all_goals simp


theorem loop_check_screens_step (inp : TickInput) (beh : StoreBehavior)
    (st : AppState) (u : UserRec)
    (hcu : st.currentUser = some u) (hps : st.preShift = false) :
    ((loop_check inp beh st).2.2 = false ∧
     (loop_check inp beh st).1.screenshotsTakenToday = st.screenshotsTakenToday ∧
     (loop_check inp beh st).1.nextScreenshotAfterMs = st.nextScreenshotAfterMs ∧
     Effect.screenshotCapture ∉ (loop_check inp beh st).2.1 ∧
     Effect.screenshotInsert ∉ (loop_check inp beh st).2.1) ∨
    (∃ (st5 : AppState) (e3 : List Effect),
      st5.currentUser = some u ∧
      st5.screenshotsTakenToday = st.screenshotsTakenToday ∧
      st5.nextScreenshotAfterMs = st.nextScreenshotAfterMs ∧
      Effect.screenshotCapture ∉ e3 ∧ Effect.screenshotInsert ∉ e3 ∧
      (loop_check inp beh st).1 = (maybe_take_random_screenshot inp.minsShot beh st5).1 ∧
      (loop_check inp beh st).2.1 =
        e3 ++ (maybe_take_random_screenshot inp.minsShot beh st5).2) := by
  have hne : st.currentUser ≠ none := by simp [hcu]
  rw [loop_check_user_eq inp beh st hne hps]
  obtain ⟨hr1, -, -, -, -, -, -, -, hr9, hr10, -, -, hr13⟩ :=
    recompute_bounds_frame st inp.nowLocal
  obtain ⟨ht1, -, -, -, ht5, ht6, -, -, -, -, ht11, -⟩ :=
    ticker_step_frame inp.now (inp.now - st.lastActivity)
      (after_end_flag (recompute_bounds_if_needed st inp.nowLocal) inp.nowLocal)
      (recompute_bounds_if_needed st inp.nowLocal)
  rcases hib : inactivity_boundary inp beh (inp.now - st.lastActivity)
      (ticker_step inp.now (inp.now - st.lastActivity)
        (after_end_flag (recompute_bounds_if_needed st inp.nowLocal) inp.nowLocal)
        (recompute_bounds_if_needed st inp.nowLocal)) with e3 | p <;> dsimp only
  · obtain ⟨hn1, hn2⟩ := inactivity_boundary_error_no_screens inp beh _ _ e3 hib
    refine Or.inl ⟨rfl, ?_, ?_, hn1, hn2⟩
    · rw [ht5, hr9]
    · rw [ht6, hr10]
  · obtain ⟨st5, e3⟩ := p
    obtain ⟨hb1, hb2, -, -, -, -, -, -, -, hb10, hb11, -, -, -, -⟩ :=
      inactivity_boundary_ok_frame inp beh (inp.now - st.lastActivity) _ st5 e3 hib
    obtain ⟨hn1, hn2⟩ := inactivity_boundary_ok_no_screens inp beh _ _ st5 e3 hib
    rw [if_pos (by rw [hb2, ht11, hr13]; exact hps)]
    refine Or.inr ⟨st5, e3, ?_, ?_, ?_, hn1, hn2, rfl, rfl⟩
    · rw [hb1, ht1, hr1, hcu]
    · rw [hb10, ht5, hr9]
    · rw [hb11, ht6, hr10]

theorem loop_check_taken_le (inp : TickInput) (beh : StoreBehavior) (st : AppState)
    (h : st.screenshotsTakenToday ≤ MIN_SCREENSHOTS_PER_SHIFT) :
    (loop_check inp beh st).1.screenshotsTakenToday ≤ MIN_SCREENSHOTS_PER_SHIFT := by
  have hL : (login_reminder inp.now st).1.screenshotsTakenToday =
      st.screenshotsTakenToday := by
    rcases login_reminder_state inp.now st with h1 | h1 <;> rw [h1]
  unfold loop_check
  dsimp only
  rcases hpre : pre_shift_step inp beh (login_reminder inp.now st).1 with _ | ⟨st2, e2⟩ <;>
    dsimp only
  · rw [hL]; exact h
  · have h2 : st2.screenshotsTakenToday ≤ MIN_SCREENSHOTS_PER_SHIFT := by
      rcases pre_shift_step_taken inp beh _ st2 e2 hpre with h1 | h1
      · rw [h1, hL]; exact h
      · rw [h1]; exact Nat.zero_le _
    obtain ⟨-, -, -, -, -, -, -, -, hr9, -, -, -, -⟩ :=
      recompute_bounds_frame st2 inp.nowLocal
    obtain ⟨-, -, -, -, ht5, -, -, -, -, -, -, -⟩ :=
      ticker_step_frame inp.now (inp.now - st.lastActivity)
        (after_end_flag (recompute_bounds_if_needed st2 inp.nowLocal) inp.nowLocal)
        (recompute_bounds_if_needed st2 inp.nowLocal)
    have h4 : (ticker_step inp.now (inp.now - st.lastActivity)
        (after_end_flag (recompute_bounds_if_needed st2 inp.nowLocal) inp.nowLocal)
        (recompute_bounds_if_needed st2 inp.nowLocal)).screenshotsTakenToday ≤
        MIN_SCREENSHOTS_PER_SHIFT := by
      rw [ht5, hr9]; exact h2
    rcases hib : inactivity_boundary inp beh (inp.now - st.lastActivity)
        (ticker_step inp.now (inp.now - st.lastActivity)
          (after_end_flag (recompute_bounds_if_needed st2 inp.nowLocal) inp.nowLocal)
          (recompute_bounds_if_needed st2 inp.nowLocal)) with e3 | p <;> dsimp only
    · exact h4
    · obtain ⟨st5, e3⟩ := p
      obtain ⟨-, -, -, -, -, -, -, -, -, hb10, -, -, -, -, -⟩ :=
        inactivity_boundary_ok_frame inp beh (inp.now - st.lastActivity) _ st5 e3 hib
      by_cases h5 : st5.preShift = false
      · rw [if_pos h5]
        exact maybe_take_sat inp.minsShot beh st5 (by rw [hb10]; exact h4)
      · rw [if_neg h5]
        rw [hb10]; exact h4


/-- C7: once the daily count has reached `MIN_SCREENSHOTS_PER_SHIFT`
(15), a tick issues no further capture or screenshot-persist call and
the counter stays put (it can never exceed 15); while the session is
pre-shift (and stays so through the tick), the tick emits no effects
at all and the screenshot counter and armed delay are untouched; and a
tick whose armed delay expires re-arms the scheduler with the fresh
random draw `mins * 60 * 1000` ms, `mins ∈ [20, 35]`. -/
theorem C7_screenshot_scheduler :
    (∀ (inp : TickInput) (beh : StoreBehavior) (st : AppState) (u : UserRec),
      st.currentUser = some u → st.preShift = false →
      MIN_SCREENSHOTS_PER_SHIFT ≤ st.screenshotsTakenToday →
      Effect.screenshotCapture ∉ (loop_check inp beh st).2.1 ∧
      Effect.screenshotInsert ∉ (loop_check inp beh st).2.1 ∧
      (loop_check inp beh st).1.screenshotsTakenToday = st.screenshotsTakenToday) ∧
    (∀ (inp : TickInput) (beh : StoreBehavior) (st : AppState),
      st.screenshotsTakenToday ≤ MIN_SCREENSHOTS_PER_SHIFT →
      (loop_check inp beh st).1.screenshotsTakenToday ≤ MIN_SCREENSHOTS_PER_SHIFT) ∧
    (∀ (inp : TickInput) (beh : StoreBehavior) (st : AppState) (u : UserRec),
      st.currentUser = some u → st.preShift = true →
      (∀ ts, st.todayShiftStart = some ts → 0 < pyInt (ts - inp.nowLocal)) →
      (loop_check inp beh st).2.1 = [] ∧
      (loop_check inp beh st).1.screenshotsTakenToday = st.screenshotsTakenToday ∧
      (loop_check inp beh st).1.nextScreenshotAfterMs = st.nextScreenshotAfterMs) ∧
    (∀ (inp : TickInput) (st : AppState) (u : UserRec) (ms : ℤ),
      st.currentUser = some u → st.preShift = false →
      st.screenshotsTakenToday < MIN_SCREENSHOTS_PER_SHIFT →
      st.nextScreenshotAfterMs = some ms → ms - CHECK_INTERVAL_MS ≤ 0 →
      (loop_check inp allOk st).1.nextScreenshotAfterMs =
        some ((inp.minsShot : ℤ) * 60 * 1000) ∧
      Effect.screenshotCapture ∈ (loop_check inp allOk st).2.1 ∧
      (loop_check inp allOk st).1.screenshotsTakenToday =
        st.screenshotsTakenToday + 1 ∧
      (20 ≤ inp.minsShot → inp.minsShot ≤ 35 →
        20 * 60 * 1000 ≤ (inp.minsShot : ℤ) * 60 * 1000 ∧
        (inp.minsShot : ℤ) * 60 * 1000 ≤ 35 * 60 * 1000)) := by
  refine ⟨?_, ?_, ?_, ?_⟩
  · intro inp beh st u hcu hps h15
    rcases loop_check_screens_step inp beh st u hcu hps with
      ⟨-, a2, -, a4, a5⟩ | ⟨st5, e3, -, b2, -, b4, b5, b6, b7⟩
    · exact ⟨a4, a5, a2⟩
    · have hcap := maybe_take_capped inp.minsShot beh st5 (by rw [b2]; exact h15)
      rw [b6, b7, hcap]
      exact ⟨by simp [b4], by simp [b5], b2⟩
  · intro inp beh st h
    exact loop_check_taken_le inp beh st h
  · intro inp beh st u hcu hps hstay
    unfold loop_check
    dsimp only
    rw [login_reminder_of_user inp.now st (by simp [hcu])]
    dsimp only
    rw [pre_shift_step_stays inp beh st hps hstay]
    dsimp only
    obtain ⟨-, -, -, -, -, -, -, -, hr9, hr10, -, -, hr13⟩ :=
      recompute_bounds_frame st inp.nowLocal
    obtain ⟨-, -, -, -, ht5, ht6, -, -, -, -, ht11, -⟩ :=
      ticker_step_frame inp.now (inp.now - st.lastActivity)
        (after_end_flag (recompute_bounds_if_needed st inp.nowLocal) inp.nowLocal)
        (recompute_bounds_if_needed st inp.nowLocal)
    have hps4 : (ticker_step inp.now (inp.now - st.lastActivity)
        (after_end_flag (recompute_bounds_if_needed st inp.nowLocal) inp.nowLocal)
        (recompute_bounds_if_needed st inp.nowLocal)).preShift = true := by
      rw [ht11, hr13]; exact hps
    have hng : ¬ firesGuard (inp.now - st.lastActivity)
        (ticker_step inp.now (inp.now - st.lastActivity)
          (after_end_flag (recompute_bounds_if_needed st inp.nowLocal) inp.nowLocal)
          (recompute_bounds_if_needed st inp.nowLocal)) := by
      rintro ⟨-, hf, -, -⟩
      rw [hps4] at hf
      exact absurd hf (by simp)
    rw [inactivity_boundary_not_fired _ _ _ _ hng]
    dsimp only
    rw [if_neg (by rw [hps4]; simp)]
    refine ⟨rfl, ?_, ?_⟩
    · rw [ht5, hr9]
    · rw [ht6, hr10]
  · intro inp st u ms hcu hps hlt hms hfire
    rcases loop_check_screens_step inp allOk st u hcu hps with
      ⟨a1, -⟩ | ⟨st5, e3, b1, b2, b3, -, -, b6, b7⟩
    · obtain ⟨hsched, -⟩ := loop_check_user_core inp st u hcu hps
      rw [a1] at hsched
      simp at hsched
    · obtain ⟨r1, r2, -, r4, -⟩ := maybe_take_rearm inp.minsShot allOk st5 u ms b1
        (by rw [b2]; exact hlt) (by rw [b3]; exact hms) hfire
      rw [b6, b7]
      refine ⟨r1, List.mem_append_right _ r2, ?_, ?_⟩
      · rw [r4 rfl rfl, b2]
      · intro h20 h35
        have h20z : (20 : ℤ) ≤ (inp.minsShot : ℤ) := by exact_mod_cast h20
        have h35z : ((inp.minsShot : ℤ) : ℤ) ≤ 35 := by exact_mod_cast h35
        constructor <;> linarith

def C7u : UserRec := ⟨32400, some 64800, "n", "u", "e", "d"⟩

def C7st : AppState :=
  ⟨some C7u, 1010, false, some 990, none, 0, 0, 0, 1000, 0, 3,
   some 100, some 118800, some 151200, none, false, false⟩

def C7inp : TickInput := ⟨1012, 120000, 25, 30, 7⟩

/-- C7 witness: a tick whose armed delay has expired fires one capture
and re-arms with the drawn 30 minutes = 1,800,000 ms, within the
20-35 minute range. -/
theorem C7_screenshot_scheduler_witness :
    C7st.currentUser = some C7u ∧ C7st.preShift = false ∧
    C7st.screenshotsTakenToday < MIN_SCREENSHOTS_PER_SHIFT ∧
    (loop_check C7inp allOk C7st).1.nextScreenshotAfterMs = some 1800000 ∧
    (loop_check C7inp allOk C7st).1.screenshotsTakenToday = 4 := by
  have h := C7_screenshot_scheduler.2.2.2 C7inp C7st C7u 100 rfl rfl
    (by norm_num [C7st, MIN_SCREENSHOTS_PER_SHIFT]) rfl
    (by norm_num [CHECK_INTERVAL_MS])
  exact ⟨rfl, rfl, by norm_num [C7st, MIN_SCREENSHOTS_PER_SHIFT],
    by rw [h.1]; norm_num [C7inp], by rw [h.2.2.1]; norm_num [C7st]⟩

/-- C8: the alert email's recipient set equals the deduplicated union
of the user's own (non-empty) email, the non-empty admin emails, the
(non-empty) bootstrap admin email and the configured extra recipients;
the body carries the active streak formatted `HH:MM:SS` whenever the
duration is present and non-zero; the worker finishes normally whether
or not the send raised; and the duration the transition hands to the
fan-out is at least the 10 s threshold, hence non-zero, whenever a
prior active streak exists. -/
theorem C8_email_fanout :
    (∀ (userEmail bootstrapEmail : String) (adminEmails alerts : List String),
      fanoutRecipients userEmail adminEmails bootstrapEmail alerts =
        specRecipients userEmail adminEmails bootstrapEmail alerts) ∧
    (∀ (u : UserRec) (adminEmails alerts : List String)
        (bootstrapEmail whenTxt : String) (d : ℤ) (sendOk : Bool),
      d ≠ 0 →
      (∃ pre post,
        fanoutBody u.name u.username u.email u.department whenTxt (some d) =
          pre ++ seconds_to_hhmmss (some d) ++ post) ∧
      (fanout_send u adminEmails bootstrapEmail alerts whenTxt (some d) sendOk).2 = true ∧
      (∀ c, (fanout_send u adminEmails bootstrapEmail alerts whenTxt
          (some d) sendOk).1 = some c →
        c.recipients = specRecipients u.email adminEmails bootstrapEmail alerts ∧
        c.body = fanoutBody u.name u.username u.email u.department whenTxt (some d))) ∧
    (∀ (inp : TickInput) (st : AppState) (u : UserRec) (a : ℚ) (d : ℤ),
      st.currentUser = some u → st.preShift = false →
      st.activeSince = some a → a ≤ st.lastActivity →
      Effect.emailDispatch (some d) ∈ (loop_check inp allOk st).2.1 →
      10 ≤ d) := by
  have hrec : ∀ (userEmail bootstrapEmail : String) (adminEmails alerts : List String),
      fanoutRecipients userEmail adminEmails bootstrapEmail alerts =
        specRecipients userEmail adminEmails bootstrapEmail alerts := by
    intro ue be ae al
    unfold fanoutRecipients specRecipients
    dsimp only
    split_ifs <;> ext x <;>
      simp [Finset.mem_union, Finset.mem_insert, List.mem_toFinset] <;> tauto
  refine ⟨hrec, ?_, ?_⟩
  · intro u adminEmails alerts bootstrapEmail whenTxt d sendOk hd
    refine ⟨⟨_, _, by unfold fanoutBody; dsimp only; rw [if_neg hd]⟩, rfl, ?_⟩
    intro c hc
    unfold fanout_send at hc
    dsimp only at hc
    split at hc
    · simp at hc
    · simp only [Option.some.injEq] at hc
      rw [← hc]
      exact ⟨hrec u.email bootstrapEmail adminEmails alerts, rfl⟩
  · intro inp st u a d hcu hps ha hal hmem
    obtain ⟨-, -, -, -, -, -, -, e4, he4, heq⟩ := loop_check_user_core inp st u hcu hps
    rw [heq] at hmem
    rcases List.mem_append.mp hmem with hin | hin
    · by_cases hG : INACTIVITY_SECONDS ≤ inp.now - st.lastActivity ∧ st.inactiveSent = false
      · rw [if_pos hG] at hin
        have hd : some d = Option.map (fun x => pyInt (inp.now - x)) st.activeSince := by
          rcases List.mem_append.mp hin with h1 | h1
          · simp at h1
            exact h1
          · split at h1 <;> simp at h1
        rw [ha] at hd
        simp at hd
        rw [hd]
        have h10 : (10 : ℚ) ≤ inp.now - a := by
          have := hG.1
          unfold INACTIVITY_SECONDS at this
          linarith
        rw [pyInt_of_nonneg _ (by linarith)]
        rw [Int.le_floor]
        push_cast
        linarith
      · rw [if_neg hG] at hin
        simp at hin
    · rcases he4 _ hin with h1 | h1 <;> simp at h1

def C8u : UserRec := ⟨32400, some 64800, "n", "u", "e@x", "d"⟩

/-- C8 witness: with a 22 s streak the body embeds `00:00:22`, and a
concrete recipient computation matches the spec's union. -/
theorem C8_email_fanout_witness :
    ((22 : ℤ) ≠ 0) ∧
    (∃ pre post,
      fanoutBody C8u.name C8u.username C8u.email C8u.department "T" (some 22) =
        pre ++ seconds_to_hhmmss (some 22) ++ post) ∧
    fanoutRecipients "u@x" ["a@x", "", "b@x"] "boot@x" ["extra@x"] =
      specRecipients "u@x" ["a@x", "", "b@x"] "boot@x" ["extra@x"] :=
  ⟨by decide,
   (C8_email_fanout.2.1 C8u ["a@x"] ["extra@x"] "boot@x" "T" 22 true (by decide)).1,
   C8_email_fanout.1 "u@x" "boot@x" ["a@x", "", "b@x"] ["extra@x"]⟩
end IdleTracker
